import Mathlib

/-!
Verification of the OccupEye caching engine
(`backend/uclapi/workspaces/occupeye.py`).

The Python module is a caching facade over the Cad-Capture OccupEye HTTP
API.  All state lives in a Redis instance (`self.r`) plus two instance
fields holding the OAuth access token and its expiry.  We embed the code
shallowly:

* the Redis store is an association list from key strings to a value
  (string / list / hash) together with an optional absolute expiry
  deadline;
* wall-clock time is an explicit `Nat` field `now` of the state; a key
  with deadline `d` is live iff `now < d`;
* every Redis pipeline is modelled as a list of commands applied by a
  single `applyCmds` call, mirroring the buffered-then-`execute()`
  behaviour of `redis.py` pipelines;
* the upstream HTTP API is a parameter (`Upstream`) giving the JSON
  payloads each endpoint would return; every upstream request is
  recorded in a `trace` field so that theorems can count upstream
  fetches;
* Python exceptions are modelled by returning `Except PyErr α` *paired
  with* the state at raise time, so that side effects committed before
  a raise are preserved, exactly as in Python.
-/

namespace OccupEye

/-- Python-level exceptions that the embedded code can raise.
`badOccupEyeRequest` is the module's own `BadOccupEyeRequest`; the other
constructors are the built-in exceptions the code can hit
(`IndexError` from `sensor_hw_ids[0]`, `KeyError` from `d[k]`,
`ValueError` from `int(s)`, `TypeError` from comparing `None`,
and a Redis `WRONGTYPE` reply). -/
inductive PyErr where
  | badOccupEyeRequest
  | indexError
  | keyError
  | valueError
  | typeError
  | wrongType
deriving DecidableEq, Repr

/-- A Redis value: plain string, list of strings, or hash
(field/value pairs).  `decode_responses=True` is set on the client, so
everything is a text string on the Python side as well. -/
inductive RVal where
  | str (s : String)
  | list (xs : List String)
  | hash (fields : List (String × String))
deriving DecidableEq, Repr

/-- First-match association-list lookup (Python dict / Redis hash read). -/
def lookupD {α : Type} : List (String × α) → String → Option α
  | [], _ => none
  | (k', v) :: rest, k => if k' = k then some v else lookupD rest k

/-- Python `d[k] = v` on a dict represented as an insertion-ordered
association list: replace in place if the key exists, else append. -/
def updD {α : Type} : List (String × α) → String → α → List (String × α)
  | [], k, v => [(k, v)]
  | (k', v') :: rest, k, v =>
    if k' = k then (k, v) :: rest else (k', v') :: updD rest k v

/-- Apply a set of hash-field writes (`HMSET`) on top of existing fields. -/
def updFields (old : List (String × String)) (new : List (String × String)) :
    List (String × String) :=
  new.foldl (fun acc kv => updD acc kv.1 kv.2) old

/-- The Redis store: key, value, optional absolute expiry deadline. -/
abbrev Store := List (String × (RVal × Option Nat))

/-- Remove every binding of key `k`. -/
def eraseK : Store → String → Store
  | [], _ => []
  | e :: rest, k => if e.1 = k then eraseK rest k else e :: eraseK rest k

/-- Overwrite the binding of `k`. -/
def setK (st : Store) (k : String) (v : RVal × Option Nat) : Store :=
  (k, v) :: eraseK st k

/-- Liveness filter on a binding: a binding whose deadline has passed
behaves exactly like an absent one. -/
def liveOf (now : Nat) : Option (RVal × Option Nat) → Option (RVal × Option Nat)
  | none => none
  | some (v, none) => some (v, none)
  | some (v, some d) => if now < d then some (v, some d) else none

/-- The live value at key `k` at time `now`. -/
def liveVal (st : Store) (now : Nat) (k : String) : Option (RVal × Option Nat) :=
  liveOf now (lookupD st k)

/-- Redis commands issued by the module (always inside a pipeline). -/
inductive RCmd where
  | del (k : String)
  | set (k : String) (v : String)
  | hmset (k : String) (fields : List (String × String))
  | rpush (k : String) (v : String)
  | lpush (k : String) (v : String)
  | expire (k : String) (ttl : Nat)
deriving DecidableEq, Repr

/-- The key a command addresses. -/
def RCmd.key : RCmd → String
  | .del k => k
  | .set k _ => k
  | .hmset k _ => k
  | .rpush k _ => k
  | .lpush k _ => k
  | .expire k _ => k

/-- One Redis command.  `SET` clears any TTL; `HMSET`/`RPUSH`/`LPUSH` on a
missing (or expired) key create it with no TTL; `EXPIRE` on a missing key
is a no-op.  A type-mismatched write (e.g. `RPUSH` on a string key) would
raise `WRONGTYPE` in Redis; the module never issues one (its key
namespaces are disjoint per type), and we model it as a no-op. -/
def applyCmd (now : Nat) (st : Store) : RCmd → Store
  | .del k => eraseK st k
  | .set k v => setK st k (.str v, none)
  | .hmset k fs =>
    match liveVal st now k with
    | some (.hash old, d) => setK st k (.hash (updFields old fs), d)
    | none => setK st k (.hash (updFields [] fs), none)
    | some _ => st
  | .rpush k v =>
    match liveVal st now k with
    | some (.list xs, d) => setK st k (.list (xs ++ [v]), d)
    | none => setK st k (.list [v], none)
    | some _ => st
  | .lpush k v =>
    match liveVal st now k with
    | some (.list xs, d) => setK st k (.list (v :: xs), d)
    | none => setK st k (.list [v], none)
    | some _ => st
  | .expire k ttl =>
    match liveVal st now k with
    | some (v, _) => setK st k (v, some (now + ttl))
    | none => st

/-- Execute a buffered pipeline: apply the commands in order. -/
def applyCmds (now : Nat) (st : Store) (cmds : List RCmd) : Store :=
  cmds.foldl (applyCmd now) st

/-- `self.r.exists(k)`. -/
def rexists (st : Store) (now : Nat) (k : String) : Bool :=
  (liveVal st now k).isSome

/-- `self.r.get(k)`: `None` when absent, the string when present,
`WRONGTYPE` when the key holds a list or hash. -/
def rget (st : Store) (now : Nat) (k : String) : Except PyErr (Option String) :=
  match liveVal st now k with
  | none => .ok none
  | some (.str s, _) => .ok (some s)
  | some _ => .error .wrongType

/-- `self.r.llen(k)`: 0 when the key is absent.  (Redis would raise
`WRONGTYPE` on a non-list key; the module only ever calls `llen` on its
list keys.) -/
def llen (st : Store) (now : Nat) (k : String) : Nat :=
  match liveVal st now k with
  | some (.list xs, _) => xs.length
  | _ => 0

/-- `self.r.lrange(k, 0, stop)` (the module always passes start `0`).
A negative `stop` counts from the end, as in Redis: the module uses
`llen - 1` (which is `-1` on an empty list) and plain `llen`. -/
def lrange (st : Store) (now : Nat) (k : String) (stop : Int) : List String :=
  match liveVal st now k with
  | some (.list xs, _) =>
    xs.take ((if stop < 0 then (xs.length : Int) + stop else stop) + 1).toNat
  | _ => []

/-- `self.r.hgetall(k)`: empty dict when the key is absent. -/
def hgetall (st : Store) (now : Nat) (k : String) : List (String × String) :=
  match liveVal st now k with
  | some (.hash fs, _) => fs
  | _ => []

/-! ## Upstream API model -/

/-- One entry of the `/api/Surveys/` JSON response.  Ids are JSON
numbers; `Active` is a JSON boolean. -/
structure UpSurvey where
  SurveyID : Nat
  Active : Bool
  Name : String
  StartTime : String
  EndTime : String
deriving DecidableEq, Repr

/-- One entry of the `/api/Maps/?surveyid=` JSON response. -/
structure UpMap where
  MapID : Nat
  MapName : String
  ImageID : Nat
deriving DecidableEq, Repr

/-- One entry of the `/api/SurveySensorsLatest/` JSON response. -/
structure UpSensorState where
  HardwareID : Nat
  SensorID : Nat
  LastTriggerType : String
  LastTriggerTime : String
deriving DecidableEq, Repr

/-- One entry of `MapItemViewModels` in the `/api/Maps/{id}` response. -/
structure UpMapSensor where
  HardwareID : Nat
  X : Nat
  Y : Nat
deriving DecidableEq, Repr

/-- The `/api/images/{id}` response: payload (kept abstract as the text
that ends up base64-encoded in the cache) and `Content-Type` header. -/
structure UpImage where
  payload : String
  contentType : String
deriving DecidableEq, Repr

/-- The `/token` response. -/
structure UpTokenResp where
  access_token : String
  expires_in : Nat
deriving DecidableEq, Repr

/-- The upstream HTTP API, as the deterministic data each endpoint
returns.  `images = none` models a failing image fetch (the only
upstream call the module guards with `try`). -/
structure Upstream where
  tokenResp : UpTokenResp
  surveys : List UpSurvey
  mapsFor : Nat → List UpMap
  sensorStates : String → List UpSensorState
  mapSensors : String → List UpMapSensor
  images : String → Option UpImage

/-- A record of one upstream HTTP request, for counting fetches. -/
inductive UpCall where
  | tokenFetch
  | surveysFetch
  | mapsFetch (surveyId : Nat)
  | statesFetch (surveyId : String)
  | mapSensorsFetch (mapId : String)
  | imageFetch (imageId : String)
deriving DecidableEq, Repr

/-- Number of occurrences of one upstream call in a trace. -/
def countCall (c : UpCall) : List UpCall → Nat
  | [] => 0
  | c' :: rest => (if c' = c then 1 else 0) + countCall c rest

/-- The full state of an `OccupEyeApi` instance: the Redis store, the
wall clock, the two credential instance fields, and the trace of
upstream requests made so far. -/
structure ApiState where
  store : Store
  now : Nat
  access_token : Option String
  access_token_expiry : Option Nat
  trace : List UpCall
deriving DecidableEq, Repr

/-- A fresh instance over an empty Redis store ("empty cache"). -/
def emptyState (now : Nat) : ApiState :=
  { store := [], now := now, access_token := none,
    access_token_expiry := none, trace := [] }

/-- Advance the wall clock (time passing between calls). -/
def tick (d : Nat) (s : ApiState) : ApiState := { s with now := s.now + d }

def addTrace (c : UpCall) (s : ApiState) : ApiState :=
  { s with trace := s.trace ++ [c] }

/-- Result-with-state of an embedded call: Python exceptions carry the
state at raise time (side effects already committed stay committed). -/
abbrev Res (α : Type) := Except PyErr α × ApiState

def ok {α : Type} (a : α) (s : ApiState) : Res α := (.ok a, s)

def raise {α : Type} (e : PyErr) (s : ApiState) : Res α := (.error e, s)

/-! ## Cache key construction (the `format` strings of the source) -/

def SURVEY_TTL : Nat := 86400
def IMAGE_TTL : Nat := 172800
def SENSOR_STATUS_TTL : Nat := 60

def surveysKey : String := "occupeye:surveys"
def surveyKey (sid : String) : String := "occupeye:surveys:" ++ sid
def surveyMapsKey (sid : String) : String :=
  "occupeye:surveys:" ++ sid ++ ":maps"
def surveyMapKey (sid mid : String) : String :=
  "occupeye:surveys:" ++ sid ++ ":maps:" ++ mid
def mapSensorsListKey (sid mid : String) : String :=
  "occupeye:surveys:" ++ sid ++ ":maps:" ++ mid ++ ":sensors"
def mapSensorPropsKey (sid mid hw : String) : String :=
  mapSensorsListKey sid mid ++ ":" ++ hw ++ ":properties"
/-- The key probed at occupeye.py:523-525 — note the `:maps:{map_id}`
segment, absent from `sensorStatusKey` below. -/
def probeStatusKey (sid mid hw : String) : String :=
  "occupeye:surveys:" ++ sid ++ ":maps:" ++ mid ++ ":sensors:" ++ hw ++ ":status"
def sensorsListKey (sid : String) : String :=
  "occupeye:surveys:" ++ sid ++ ":sensors"
def sensorDataKey (sid hw : String) : String :=
  "occupeye:surveys:" ++ sid ++ ":sensors:" ++ hw ++ ":data"
def sensorStatusKey (sid hw : String) : String :=
  "occupeye:surveys:" ++ sid ++ ":sensors:" ++ hw ++ ":status"
def imageB64Key (iid : String) : String :=
  "occupeye:image:" ++ iid ++ ":base64"
def imageCTKey (iid : String) : String :=
  "occupeye:image:" ++ iid ++ ":content_type"
def tokenKey : String := "occupeye:access_token"
def tokenExpiryKey : String := "occupeye:access_token_expiry"

/-- `redis.py` encodes a Python `bool` field value via `str`:
`str(True) = "True"`. -/
def pyStrBool (b : Bool) : String := if b then "True" else "False"

/-- Python `str.isdigit()` (ASCII fragment): nonempty and all digits. -/
def pyIsDigit (s : String) : Bool :=
  !s.data.isEmpty && s.data.all (·.isDigit)

/-- Python `int(s)` on a cache field (`ValueError` on garbage). -/
def pyInt (s : String) : Except PyErr Nat :=
  match s.toNat? with
  | some n => .ok n
  | none => .error .valueError

/-- Python dict read `d[k]` (`KeyError` when absent). -/
def dGet {α : Type} (d : List (String × α)) (k : String) : Except PyErr α :=
  match lookupD d k with
  | some v => .ok v
  | none => .error .keyError

/-! ## The embedded module functions -/

/-- Python `str.lower()` (ASCII fragment), mapped per character.
(`String.toLower` in core is extensionally the same but is defined by
well-founded recursion, which the kernel cannot evaluate.) -/
def pyLower (s : String) : String := ⟨s.data.map Char.toLower⟩

/-- `OccupEyeApi._str2bool` (occupeye.py:65-72). -/
def str2bool (v : String) : Bool :=
  pyLower v = "yes" || pyLower v = "true" || pyLower v = "t" || pyLower v = "1"

/-- `OccupEyeApi.get_token` (occupeye.py:74-98): unconditional
credential exchange; stores token and absolute expiry both in the
instance fields and in Redis (the two `r.set` calls). -/
def get_token (up : Upstream) (s : ApiState) : ApiState :=
  let s1 := addTrace .tokenFetch s
  let tok := up.tokenResp.access_token
  let expiry := s1.now + up.tokenResp.expires_in
  { s1 with
    access_token := some tok,
    access_token_expiry := some expiry,
    store := applyCmds s1.now s1.store
      [.set tokenKey tok, .set tokenExpiryKey (Nat.repr expiry)] }

/-- `OccupEyeApi.token_valid` (occupeye.py:100-111).  Python truthiness:
`not self.access_token` is `True` for both `None` and `""`.  If the
token is truthy but the expiry is `None`, `time_now() > None` raises
`TypeError` (never reached from a fresh instance). -/
def token_valid (s : ApiState) : Except PyErr Bool :=
  match s.access_token with
  | none => .ok false
  | some tok =>
    if tok = "" then .ok false
    else
      match s.access_token_expiry with
      | none => .error .typeError
      | some expiry => if s.now > expiry then .ok false else .ok true

/-- The `return "Bearer " + self.access_token` tail of
`get_bearer_token` (`TypeError` if the token were still `None`). -/
def bearer_return (s1 : ApiState) : Res String :=
  match s1.access_token with
  | some tok => ok ("Bearer " ++ tok) s1
  | none => raise .typeError s1

/-- `OccupEyeApi.get_bearer_token` (occupeye.py:113-121). -/
def get_bearer_token (up : Upstream) (s : ApiState) : Res String :=
  match token_valid s with
  | .error e => raise e s
  | .ok valid => bearer_return (if valid then s else get_token up s)

/-- The pipeline buffered by `_cache_maps_for_survey`
(occupeye.py:123-174): delete the map-id list, then per map `HMSET` the
record, `RPUSH` the id, `EXPIRE` the record; finally `EXPIRE` the list. -/
def mapsForSurveyCmds (survey_id : Nat) (maps : List UpMap) : List RCmd :=
  .del (surveyMapsKey (Nat.repr survey_id)) ::
  maps.flatMap (fun m =>
    [.hmset (surveyMapKey (Nat.repr survey_id) (Nat.repr m.MapID))
       [("id", Nat.repr m.MapID), ("name", m.MapName),
        ("image_id", Nat.repr m.ImageID)],
     .rpush (surveyMapsKey (Nat.repr survey_id)) (Nat.repr m.MapID),
     .expire (surveyMapKey (Nat.repr survey_id) (Nat.repr m.MapID)) SURVEY_TTL])
  ++ [.expire (surveyMapsKey (Nat.repr survey_id)) SURVEY_TTL]

/-- `OccupEyeApi._cache_maps_for_survey` (occupeye.py:123-174). -/
def cache_maps_for_survey (up : Upstream) (survey_id : Nat) (s : ApiState) :
    Res Unit :=
  match get_bearer_token up s with
  | (.error e, s') => raise e s'
  | (.ok _, s1) =>
    let s2 := addTrace (.mapsFetch survey_id) s1
    ok () { s2 with
      store := applyCmds s2.now s2.store
        (mapsForSurveyCmds survey_id (up.mapsFor survey_id)) }

/-- The commands `_cache_survey_data` buffers in its *outer* pipeline for
one survey (occupeye.py:201-216): `HMSET` the record, `EXPIRE` it, and
`LPUSH` (prepend!) the id onto the survey list. -/
def surveyCmds (sv : UpSurvey) : List RCmd :=
  [.hmset (surveyKey (Nat.repr sv.SurveyID))
     [("id", Nat.repr sv.SurveyID), ("active", pyStrBool sv.Active),
      ("name", sv.Name), ("start_time", sv.StartTime),
      ("end_time", sv.EndTime)],
   .expire (surveyKey (Nat.repr sv.SurveyID)) SURVEY_TTL,
   .lpush surveysKey (Nat.repr sv.SurveyID)]

/-- The per-survey loop of `_cache_survey_data` (occupeye.py:201-218):
buffers `surveyCmds` into the outer pipeline while *executing* each
survey's map pipeline immediately (`_cache_maps_for_survey` runs its own
`pipeline.execute()` inside the loop). -/
def cache_survey_loop (up : Upstream) :
    List UpSurvey → ApiState → Res (List RCmd)
  | [], s => ok [] s
  | sv :: rest, s =>
    match cache_maps_for_survey up sv.SurveyID s with
    | (.error e, s') => raise e s'
    | (.ok _, s1) =>
      match cache_survey_loop up rest s1 with
      | (.error e, s') => raise e s'
      | (.ok cmds, s2) => ok (surveyCmds sv ++ cmds) s2

/-- `OccupEyeApi._cache_survey_data` (occupeye.py:176-221): outer
pipeline = delete the survey list, per-survey commands, final expire of
the list; executed once at the end. -/
def cache_survey_data (up : Upstream) (s : ApiState) : Res Unit :=
  match get_bearer_token up s with
  | (.error e, s') => raise e s'
  | (.ok _, s1) =>
    let s2 := addTrace .surveysFetch s1
    match cache_survey_loop up up.surveys s2 with
    | (.error e, s') => raise e s'
    | (.ok cmds, s3) =>
      ok () { s3 with
        store := applyCmds s3.now s3.store
          (.del surveysKey :: cmds ++ [.expire surveysKey SURVEY_TTL]) }

/-- A survey as serialised by `get_surveys` (occupeye.py:245-251, 275). -/
structure SurveyOut where
  id : Nat
  name : String
  active : Bool
  start_time : String
  end_time : String
  maps : List (Nat × String × Nat)
deriving DecidableEq, Repr

/-- The per-map read of `get_surveys` (occupeye.py:261-274): `HGETALL`
the map record and parse `id`/`image_id` with `int(...)`. -/
def readSurveyMap (st : Store) (now : Nat) (sid mid : String) :
    Except PyErr (Nat × String × Nat) :=
  let m := hgetall st now (surveyMapKey sid mid)
  match dGet m "id" with
  | .error e => .error e
  | .ok idS =>
    match pyInt idS with
    | .error e => .error e
    | .ok idN =>
      match dGet m "name" with
      | .error e => .error e
      | .ok nm =>
        match dGet m "image_id" with
        | .error e => .error e
        | .ok imS =>
          match pyInt imS with
          | .error e => .error e
          | .ok imN => .ok (idN, nm, imN)

def readSurveyMapsLoop (st : Store) (now : Nat) (sid : String) :
    List String → Except PyErr (List (Nat × String × Nat))
  | [] => .ok []
  | mid :: rest =>
    match readSurveyMap st now sid mid with
    | .error e => .error e
    | .ok m =>
      match readSurveyMapsLoop st now sid rest with
      | .error e => .error e
      | .ok ms => .ok (m :: ms)

/-- The per-survey read of `get_surveys` (occupeye.py:243-276). -/
def readSurvey (st : Store) (now : Nat) (sid : String) :
    Except PyErr SurveyOut :=
  let d := hgetall st now (surveyKey sid)
  match dGet d "id" with
  | .error e => .error e
  | .ok idS =>
    match pyInt idS with
    | .error e => .error e
    | .ok idN =>
      match dGet d "name" with
      | .error e => .error e
      | .ok nm =>
        match dGet d "active" with
        | .error e => .error e
        | .ok act =>
          match dGet d "start_time" with
          | .error e => .error e
          | .ok st0 =>
            match dGet d "end_time" with
            | .error e => .error e
            | .ok en0 =>
              -- maps: `lrange(key, 0, llen(key))` — note: no `- 1` here
              let mids := lrange st now (surveyMapsKey sid)
                ((llen st now (surveyMapsKey sid) : Int))
              match readSurveyMapsLoop st now sid mids with
              | .error e => .error e
              | .ok ms =>
                .ok { id := idN, name := nm, active := str2bool act,
                      start_time := st0, end_time := en0, maps := ms }

def readSurveysLoop (st : Store) (now : Nat) :
    List String → Except PyErr (List SurveyOut)
  | [] => .ok []
  | sid :: rest =>
    match readSurvey st now sid with
    | .error e => .error e
    | .ok sv =>
      match readSurveysLoop st now rest with
      | .error e => .error e
      | .ok svs => .ok (sv :: svs)

/-- `OccupEyeApi.get_surveys` (occupeye.py:223-277). -/
def get_surveys (up : Upstream) (s : ApiState) : Res (List SurveyOut) :=
  match (if llen s.store s.now surveysKey = 0
         then cache_survey_data up s else ok () s) with
  | (.error e, s') => raise e s'
  | (.ok _, s1) =>
    let ids := lrange s1.store s1.now surveysKey
      ((llen s1.store s1.now surveysKey : Int) - 1)
    match readSurveysLoop s1.store s1.now ids with
    | .error e => raise e s1
    | .ok svs => ok svs s1

/-- The pipeline of `_cache_image` (occupeye.py:305-322): payload and
content type written with the SAME TTL in the SAME batch. -/
def imageCmds (iid : String) (img : UpImage) : List RCmd :=
  [.set (imageB64Key iid) img.payload,
   .expire (imageB64Key iid) IMAGE_TTL,
   .set (imageCTKey iid) img.contentType,
   .expire (imageCTKey iid) IMAGE_TTL]

/-- `OccupEyeApi._cache_image` (occupeye.py:279-322): bearer token
first, then the fetch; any fetch failure raises `BadOccupEyeRequest`. -/
def cache_image (up : Upstream) (iid : String) (s : ApiState) : Res Unit :=
  match get_bearer_token up s with
  | (.error e, s') => raise e s'
  | (.ok _, s1) =>
    let s2 := addTrace (.imageFetch iid) s1
    match up.images iid with
    | none => raise .badOccupEyeRequest s2
    | some img =>
      ok () { s2 with
        store := applyCmds s2.now s2.store (imageCmds iid img) }

/-- `OccupEyeApi.get_image` (occupeye.py:324-341). -/
def get_image (up : Upstream) (image_id : String) (s : ApiState) :
    Res (Option String × Option String) :=
  if pyIsDigit image_id = false then raise .badOccupEyeRequest s
  else
    match (if rexists s.store s.now (imageB64Key image_id) = false
           then cache_image up image_id s else ok () s) with
    | (.error e, s') => raise e s'
    | (.ok _, s1) =>
      match rget s1.store s1.now (imageB64Key image_id) with
      | .error e => raise e s1
      | .ok b64 =>
        match rget s1.store s1.now (imageCTKey image_id) with
        | .error e => raise e s1
        | .ok ct => ok (b64, ct) s1

/-- The pipeline of `_cache_all_survey_sensor_states`
(occupeye.py:360-401): delete the sensor list; per sensor `HMSET` the
static data record and the status record, `RPUSH` the hardware id,
`EXPIRE` data with `SURVEY_TTL` and status with `SENSOR_STATUS_TTL`;
finally `EXPIRE` the list with `SURVEY_TTL`. -/
def sensorStatesCmds (sid : String) (states : List UpSensorState) : List RCmd :=
  .del (sensorsListKey sid) ::
  states.flatMap (fun sd =>
    [.hmset (sensorDataKey sid (Nat.repr sd.HardwareID))
       [("hardware_id", Nat.repr sd.HardwareID),
        ("sensor_id", Nat.repr sd.SensorID)],
     .hmset (sensorStatusKey sid (Nat.repr sd.HardwareID))
       [("id", Nat.repr sd.HardwareID),
        ("last_trigger_type", sd.LastTriggerType),
        ("last_trigger_timestamp", sd.LastTriggerTime)],
     .rpush (sensorsListKey sid) (Nat.repr sd.HardwareID),
     .expire (sensorDataKey sid (Nat.repr sd.HardwareID)) SURVEY_TTL,
     .expire (sensorStatusKey sid (Nat.repr sd.HardwareID)) SENSOR_STATUS_TTL])
  ++ [.expire (sensorsListKey sid) SURVEY_TTL]

/-- `OccupEyeApi._cache_all_survey_sensor_states` (occupeye.py:343-401). -/
def cache_all_survey_sensor_states (up : Upstream) (sid : String)
    (s : ApiState) : Res Unit :=
  match get_bearer_token up s with
  | (.error e, s') => raise e s'
  | (.ok _, s1) =>
    let s2 := addTrace (.statesFetch sid) s1
    ok () { s2 with
      store := applyCmds s2.now s2.store
        (sensorStatesCmds sid (up.sensorStates sid)) }

/-- The pipeline of `_cache_sensors_for_map` (occupeye.py:422-458):
delete the per-map sensor list; per sensor `RPUSH` the hardware id,
`HMSET` the position record, `EXPIRE` it with `SURVEY_TTL`; finally
`EXPIRE` the list with `SENSOR_STATUS_TTL` (the short TTL). -/
def mapSensorCmds (sid mid : String) (data : List UpMapSensor) : List RCmd :=
  .del (mapSensorsListKey sid mid) ::
  data.flatMap (fun d =>
    [.rpush (mapSensorsListKey sid mid) (Nat.repr d.HardwareID),
     .hmset (mapSensorPropsKey sid mid (Nat.repr d.HardwareID))
       [("id", Nat.repr d.HardwareID), ("x_pos", Nat.repr d.X),
        ("y_pos", Nat.repr d.Y)],
     .expire (mapSensorPropsKey sid mid (Nat.repr d.HardwareID)) SURVEY_TTL])
  ++ [.expire (mapSensorsListKey sid mid) SENSOR_STATUS_TTL]

/-- `OccupEyeApi._cache_sensors_for_map` (occupeye.py:403-458).  The
upstream URL only contains the map id; the survey id only shapes cache
keys. -/
def cache_sensors_for_map (up : Upstream) (sid mid : String) (s : ApiState) :
    Res Unit :=
  match get_bearer_token up s with
  | (.error e, s') => raise e s'
  | (.ok _, s1) =>
    let s2 := addTrace (.mapSensorsFetch mid) s1
    ok () { s2 with
      store := applyCmds s2.now s2.store
        (mapSensorCmds sid mid (up.mapSensors mid)) }

/-- The `sensors` OrderedDict of one map: hardware-id key to record. -/
abbrev SensorsDict := List (String × List (String × String))

/-- The properties pipeline of `get_survey_sensors` (occupeye.py:504-515):
`HGETALL` each position record, then `sensors[result['id']] = result`. -/
def propsLoop (st : Store) (now : Nat) (sid mid : String) :
    List String → SensorsDict → Except PyErr SensorsDict
  | [], acc => .ok acc
  | hw :: rest, acc =>
    let r0 := hgetall st now (mapSensorPropsKey sid mid hw)
    match lookupD r0 "id" with
    | none => .error .keyError
    | some idv => propsLoop st now sid mid rest (updD acc idv r0)

/-- The status-merge pipeline of `get_survey_sensors`
(occupeye.py:529-542): `HGETALL` each status record (note: keyed WITHOUT
the map id), skip empty results, and merge the trigger fields into the
sensor record (`KeyError` if the id is not a known sensor). -/
def statesLoop (st : Store) (now : Nat) (sid : String) :
    List String → SensorsDict → Except PyErr SensorsDict
  | [], acc => .ok acc
  | hw :: rest, acc =>
    let r0 := hgetall st now (sensorStatusKey sid hw)
    if r0.isEmpty then statesLoop st now sid rest acc
    else
      match lookupD r0 "id" with
      | none => .error .keyError
      | some idv =>
        match lookupD acc idv with
        | none => .error .keyError
        | some old =>
          match lookupD r0 "last_trigger_timestamp" with
          | none => .error .keyError
          | some ts =>
            match lookupD r0 "last_trigger_type" with
            | none => .error .keyError
            | some tt =>
              statesLoop st now sid rest
                (updD acc idv
                  (updD (updD old "last_trigger_timestamp" ts)
                    "last_trigger_type" tt))

/-- One map entry of the `get_survey_sensors` response: the map record
dict with the `sensors` OrderedDict added to it. -/
structure MapSensorsOut where
  fields : List (String × String)
  sensors : SensorsDict
deriving DecidableEq, Repr

structure SurveySensorsOut where
  maps : List MapSensorsOut
deriving DecidableEq, Repr

/-- The body of `get_survey_sensors`' `for map_id in maps` loop
(occupeye.py:488-550) for a single map. -/
def oneMap (up : Upstream) (sid : String) (return_states : Bool)
    (mid : String) (s : ApiState) : Res MapSensorsOut :=
  match (if llen s.store s.now (mapSensorsListKey sid mid) = 0
         then cache_sensors_for_map up sid mid s else ok () s) with
  | (.error e, s') => raise e s'
  | (.ok _, s1) =>
    let hwids := lrange s1.store s1.now (mapSensorsListKey sid mid)
      ((llen s1.store s1.now (mapSensorsListKey sid mid) : Int))
    match propsLoop s1.store s1.now sid mid hwids [] with
    | .error e => raise e s1
    | .ok sensors0 =>
      if return_states then
        -- `sensor_hw_ids[0]` is evaluated first: IndexError on an
        -- empty list (occupeye.py:525)
        match hwids.head? with
        | none => raise .indexError s1
        | some hw0 =>
          match rget s1.store s1.now (probeStatusKey sid mid hw0) with
          | .error e => raise e s1
          | .ok probe =>
            match (if probe = none
                   then cache_all_survey_sensor_states up sid s1
                   else ok () s1) with
            | (.error e, s') => raise e s'
            | (.ok _, s2) =>
              match statesLoop s2.store s2.now sid hwids sensors0 with
              | .error e => raise e s2
              | .ok sensors1 =>
                ok { fields := hgetall s2.store s2.now (surveyMapKey sid mid),
                     sensors := sensors1 } s2
      else
        ok { fields := hgetall s1.store s1.now (surveyMapKey sid mid),
             sensors := sensors0 } s1

def mapsLoop (up : Upstream) (sid : String) (return_states : Bool) :
    List String → ApiState → Res (List MapSensorsOut)
  | [], s => ok [] s
  | mid :: rest, s =>
    match oneMap up sid return_states mid s with
    | (.error e, s') => raise e s'
    | (.ok m, s1) =>
      match mapsLoop up sid return_states rest s1 with
      | (.error e, s') => raise e s'
      | (.ok ms, s2) => ok (m :: ms) s2

/-- `OccupEyeApi.get_survey_sensors` (occupeye.py:460-552). -/
def get_survey_sensors (up : Upstream) (survey_id : String)
    (return_states : Bool) (s : ApiState) : Res SurveySensorsOut :=
  if pyIsDigit survey_id = false then raise .badOccupEyeRequest s
  else
    match (if llen s.store s.now (surveyMapsKey survey_id) = 0
           then cache_survey_data up s else ok () s) with
    | (.error e, s') => raise e s'
    | (.ok _, s1) =>
      if llen s1.store s1.now (surveyMapsKey survey_id) = 0 then
        raise .badOccupEyeRequest s1
      else
        let maps := lrange s1.store s1.now (surveyMapsKey survey_id)
          ((llen s1.store s1.now (surveyMapsKey survey_id) : Int))
        match mapsLoop up survey_id return_states maps s1 with
        | (.error e, s') => raise e s'
        | (.ok ms, s2) => ok { maps := ms } s2

/-! ## Store lemmas -/

theorem lookupD_eraseK_self (st : Store) (k : String) :
    lookupD (eraseK st k) k = none := by
  induction st with
  | nil => rfl
  | cons e rest ih =>
    by_cases h : e.1 = k
    · simpa [eraseK, h] using ih
    · simpa [eraseK, h, lookupD] using ih

theorem lookupD_eraseK_ne (st : Store) (k k' : String) (h : k' ≠ k) :
    lookupD (eraseK st k) k' = lookupD st k' := by
  have hk : ¬ (k = k') := fun hh => h hh.symm
  induction st with
  | nil => rfl
  | cons e rest ih =>
    by_cases he : e.1 = k
    · simp [eraseK, he, lookupD, hk, ih]
    · by_cases he' : e.1 = k'
      · simp [eraseK, he, lookupD, he', h]
      · simp [eraseK, he, lookupD, he', ih]

theorem lookupD_setK_self (st : Store) (k : String) (v : RVal × Option Nat) :
    lookupD (setK st k v) k = some v := by
  simp [setK, lookupD]

theorem lookupD_setK_ne (st : Store) (k k' : String) (v : RVal × Option Nat)
    (h : k' ≠ k) : lookupD (setK st k v) k' = lookupD st k' := by
  have : k ≠ k' := fun hh => h hh.symm
  simp [setK, lookupD, this, lookupD_eraseK_ne st k k' h]

/-- Frame rule: a command addressed to another key does not change what
a key looks up to. -/
theorem lookupD_applyCmd_ne (now : Nat) (st : Store) (c : RCmd) (k : String)
    (h : c.key ≠ k) : lookupD (applyCmd now st c) k = lookupD st k := by
  have h' : k ≠ c.key := fun hh => h hh.symm
  cases c with
  | del k0 => exact lookupD_eraseK_ne st k0 k h'
  | set k0 v => exact lookupD_setK_ne st k0 k _ h'
  | hmset k0 fs =>
    show lookupD (match liveVal st now k0 with
      | some (.hash old, d) => setK st k0 (.hash (updFields old fs), d)
      | none => setK st k0 (.hash (updFields [] fs), none)
      | some _ => st) k = lookupD st k
    rcases hv : liveVal st now k0 with _ | ⟨v0, d0⟩
    · exact lookupD_setK_ne st k0 k _ h'
    · cases v0 <;> simp [lookupD_setK_ne st k0 k _ h']
  | rpush k0 v =>
    show lookupD (match liveVal st now k0 with
      | some (.list xs, d) => setK st k0 (.list (xs ++ [v]), d)
      | none => setK st k0 (.list [v], none)
      | some _ => st) k = lookupD st k
    rcases hv : liveVal st now k0 with _ | ⟨v0, d0⟩
    · exact lookupD_setK_ne st k0 k _ h'
    · cases v0 <;> simp [lookupD_setK_ne st k0 k _ h']
  | lpush k0 v =>
    show lookupD (match liveVal st now k0 with
      | some (.list xs, d) => setK st k0 (.list (v :: xs), d)
      | none => setK st k0 (.list [v], none)
      | some _ => st) k = lookupD st k
    rcases hv : liveVal st now k0 with _ | ⟨v0, d0⟩
    · exact lookupD_setK_ne st k0 k _ h'
    · cases v0 <;> simp [lookupD_setK_ne st k0 k _ h']
  | expire k0 ttl =>
    show lookupD (match liveVal st now k0 with
      | some (v, _) => setK st k0 (v, some (now + ttl))
      | none => st) k = lookupD st k
    rcases hv : liveVal st now k0 with _ | ⟨v0, d0⟩
    · rfl
    · exact lookupD_setK_ne st k0 k _ h'

theorem applyCmds_cons (now : Nat) (st : Store) (c : RCmd) (cs : List RCmd) :
    applyCmds now st (c :: cs) = applyCmds now (applyCmd now st c) cs := rfl

theorem applyCmds_append (now : Nat) (st : Store) (a b : List RCmd) :
    applyCmds now st (a ++ b) = applyCmds now (applyCmds now st a) b :=
  List.foldl_append ..

theorem lookupD_applyCmds_ne (now : Nat) (st : Store) (cmds : List RCmd)
    (k : String) (h : ∀ c ∈ cmds, c.key ≠ k) :
    lookupD (applyCmds now st cmds) k = lookupD st k := by
  induction cmds generalizing st with
  | nil => rfl
  | cons c cs ih =>
    rw [applyCmds_cons, ih _ fun c' hc' => h c' (List.mem_cons_of_mem _ hc'),
      lookupD_applyCmd_ne now st c k (h c (List.mem_cons_self ..))]

theorem liveVal_congr (st₁ st₂ : Store) (now : Nat) (k : String)
    (h : lookupD st₁ k = lookupD st₂ k) :
    liveVal st₁ now k = liveVal st₂ now k := by
  unfold liveVal; rw [h]

/-! ## String-key toolkit

All cache keys are colon-separated segments whose variable parts are
decimal renderings of upstream ids (or digits-only user input), so they
never contain `':'`.  The lemmas below let us split and distinguish keys
segment by segment. -/

theorem str_append_assoc (a b c : String) : a ++ b ++ c = a ++ (b ++ c) := by
  apply String.ext; simp

theorem str_left_cancel (p a b : String) (h : p ++ a = p ++ b) : a = b := by
  apply String.ext
  have := congrArg String.data h
  simp only [String.data_append] at this
  exact List.append_cancel_left this

/-- Two strings with distinct equal-length leading parts differ. -/
theorem str_ne_of_ne_head (p q a b : String)
    (hl : p.data.length = q.data.length) (hne : p ≠ q) : p ++ a ≠ q ++ b := by
  intro h
  apply hne
  apply String.ext
  have hd := congrArg String.data h
  simp only [String.data_append] at hd
  exact (List.append_inj hd hl).1

/-- Splitting at a separator character that occurs in neither prefix. -/
theorem sep_split {c : Char} :
    ∀ {a b u v : List Char}, c ∉ a → c ∉ b →
      a ++ c :: u = b ++ c :: v → a = b ∧ u = v := by
  intro a
  induction a with
  | nil =>
    intro b u v _ hb h
    cases b with
    | nil => simpa using h
    | cons y ys =>
      simp only [List.nil_append, List.cons_append, List.cons.injEq] at h
      exact absurd (show c ∈ y :: ys by
        rw [← h.1]; exact List.mem_cons_self c ys) hb
  | cons x xs ih =>
    intro b u v ha hb h
    cases b with
    | nil =>
      simp only [List.cons_append, List.nil_append, List.cons.injEq] at h
      exact absurd (show c ∈ x :: xs by
        rw [h.1]; exact List.mem_cons_self c xs) ha
    | cons y ys =>
      simp only [List.cons_append, List.cons.injEq] at h
      obtain ⟨hxy, htl⟩ := h
      have ha' : c ∉ xs := fun hc => ha (List.mem_cons_of_mem _ hc)
      have hb' : c ∉ ys := fun hc => hb (List.mem_cons_of_mem _ hc)
      obtain ⟨h1, h2⟩ := ih ha' hb' htl
      exact ⟨by rw [hxy, h1], h2⟩

/-- String version of `sep_split` for the `':'` separator. -/
theorem colon_split (a b u v : String)
    (ha : ':' ∉ a.data) (hb : ':' ∉ b.data)
    (h : a ++ ":" ++ u = b ++ ":" ++ v) : a = b ∧ u = v := by
  have hd := congrArg String.data h
  simp only [String.data_append, List.append_assoc, List.singleton_append] at hd
  obtain ⟨h1, h2⟩ := sep_split ha hb hd
  exact ⟨String.ext h1, String.ext h2⟩

/-- A colon-free string never equals one that contains a colon segment. -/
theorem colon_free_ne (a b m : String) (ha : ':' ∉ a.data) :
    a ≠ b ++ ":" ++ m := by
  intro h
  apply ha
  rw [h]
  simp only [String.data_append]
  simp

/-! ## Decimal rendering of `Nat`: digits only, and `toNat?` round trip -/

/-- Reference implementation of `Nat.toDigits 10`. -/
def decChars (n : Nat) : List Char :=
  if _h : n < 10 then [Nat.digitChar n]
  else decChars (n / 10) ++ [Nat.digitChar (n % 10)]
decreasing_by exact Nat.div_lt_self (by omega) (by omega)

theorem toDigitsCore_eq (fuel n : Nat) (acc : List Char) (h : n < fuel) :
    Nat.toDigitsCore 10 fuel n acc = decChars n ++ acc := by
  induction fuel generalizing n acc with
  | zero => omega
  | succ f ih =>
    show (if n / 10 = 0 then Nat.digitChar (n % 10) :: acc
          else Nat.toDigitsCore 10 f (n / 10) (Nat.digitChar (n % 10) :: acc))
        = decChars n ++ acc
    by_cases h10 : n / 10 = 0
    · have hn : n < 10 := by omega
      rw [if_pos h10, decChars]
      simp [hn, Nat.mod_eq_of_lt hn]
    · have hge : 10 ≤ n := by
        by_contra hc
        exact h10 (Nat.div_eq_of_lt (by omega))
      have hlt : n / 10 < f := by
        have := Nat.div_lt_self (by omega : 0 < n) (by omega : 1 < 10)
        omega
      rw [if_neg h10, ih _ _ hlt]
      conv_rhs => rw [decChars]
      have hn' : ¬ n < 10 := by omega
      simp [hn', List.append_assoc]

theorem natRepr_data (n : Nat) : (Nat.repr n).data = decChars n := by
  show (Nat.toDigits 10 n).asString.data = decChars n
  have : (Nat.toDigits 10 n).asString.data = Nat.toDigits 10 n := rfl
  rw [this]
  show Nat.toDigitsCore 10 (n + 1) n [] = decChars n
  rw [toDigitsCore_eq _ _ _ (by omega)]
  simp

theorem digitChar_isDigit (m : Nat) (h : m < 10) :
    (Nat.digitChar m).isDigit = true := by
  interval_cases m <;> decide

theorem decChars_digits (n : Nat) : ∀ c ∈ decChars n, c.isDigit = true := by
  induction n using Nat.strong_induction_on with
  | _ n ih =>
    intro c hc
    rw [decChars] at hc
    by_cases h : n < 10
    · simp only [dif_pos h, List.mem_singleton] at hc
      exact hc ▸ digitChar_isDigit n h
    · simp only [dif_neg h, List.mem_append, List.mem_singleton] at hc
      rcases hc with hc | hc
      · exact ih (n / 10) (Nat.div_lt_self (by omega) (by omega)) c hc
      · exact hc ▸ digitChar_isDigit _ (Nat.mod_lt _ (by omega))

theorem decChars_ne_nil (n : Nat) : decChars n ≠ [] := by
  rw [decChars]
  by_cases h : n < 10 <;> simp [h]

theorem digitChar_val (m : Nat) (h : m < 10) :
    (Nat.digitChar m).toNat - '0'.toNat = m := by
  interval_cases m <;> decide

theorem digitChar_val48 (m : Nat) (h : m < 10) :
    (Nat.digitChar m).toNat - 48 = m := by
  interval_cases m <;> decide

theorem decChars_foldl (n : Nat) : ∀ a : Nat,
    List.foldl (fun acc c => acc * 10 + (c.toNat - '0'.toNat)) a (decChars n)
      = a * 10 ^ (decChars n).length + n := by
  induction n using Nat.strong_induction_on with
  | _ n ih =>
    intro a
    rw [decChars]
    by_cases h : n < 10
    · simp [h, digitChar_val48 n h]
    · have hrec := ih (n / 10) (Nat.div_lt_self (by omega) (by omega))
      simp only [dif_neg h, List.foldl_append, List.foldl_cons, List.foldl_nil,
        List.length_append, List.length_singleton]
      rw [hrec a, digitChar_val _ (Nat.mod_lt _ (by omega))]
      have : (a * 10 ^ (decChars (n / 10)).length + n / 10) * 10 + n % 10
          = a * (10 ^ (decChars (n / 10)).length * 10) + (10 * (n / 10) + n % 10) := by
        ring
      rw [this, Nat.div_add_mod, pow_succ]

/-- Round trip: Python's `int(str(n)) == n`, in Lean terms. -/
theorem natRepr_toNat (n : Nat) : (Nat.repr n).toNat? = some n := by
  have hdata := natRepr_data n
  have hne : (Nat.repr n).data ≠ [] := by rw [hdata]; exact decChars_ne_nil n
  have hempty : (Nat.repr n).isEmpty = false := by
    by_contra hc
    have : (Nat.repr n).isEmpty = true := by
      cases hh : (Nat.repr n).isEmpty
      · exact absurd hh hc
      · rfl
    rw [String.isEmpty_iff] at this
    exact hne (by rw [this])
  have hall : (Nat.repr n).all (·.isDigit) = true := by
    rw [String.all_eq, List.all_eq_true]
    intro c hc
    exact decChars_digits n c (hdata ▸ hc)
  show (if (Nat.repr n).isNat then
      some ((Nat.repr n).foldl (fun acc c => acc * 10 + (c.toNat - '0'.toNat)) 0)
    else none) = some n
  have hnat : (Nat.repr n).isNat = true := by
    unfold String.isNat
    rw [hempty, hall]
    rfl
  rw [if_pos hnat, String.foldl_eq]
  show some (List.foldl _ 0 (Nat.repr n).data) = some n
  rw [hdata, decChars_foldl n 0]
  simp

theorem natRepr_inj {a b : Nat} (h : Nat.repr a = Nat.repr b) : a = b := by
  have h1 := natRepr_toNat a
  rw [h, natRepr_toNat b] at h1
  exact (Option.some.inj h1).symm

theorem natRepr_colon_free (n : Nat) : ':' ∉ (Nat.repr n).data := by
  intro h
  have := decChars_digits n ':' (natRepr_data n ▸ h)
  exact absurd this (by decide)

/-- Any digits-only string (e.g. validated user input) is colon-free. -/
theorem pyIsDigit_colon_free (s : String) (h : pyIsDigit s = true) :
    ':' ∉ s.data := by
  intro hc
  unfold pyIsDigit at h
  rw [Bool.and_eq_true, List.all_eq_true] at h
  have := h.2 ':' hc
  exact absurd this (by decide)

/-! ## Key-distinctness lemmas -/

theorem sensorDataKey_ne_statusKey (sid a b : String)
    (ha : ':' ∉ a.data) (hb : ':' ∉ b.data) :
    sensorDataKey sid a ≠ sensorStatusKey sid b := by
  intro h
  have hd := congrArg String.data h
  simp [sensorDataKey, sensorStatusKey, String.data_append] at hd
  obtain ⟨_, h2⟩ := sep_split ha hb hd
  simp at h2

theorem sensorsListKey_ne_statusKey (sid b : String) :
    sensorsListKey sid ≠ sensorStatusKey sid b := by
  intro h
  have hd := congrArg String.data h
  simp [sensorsListKey, sensorStatusKey, String.data_append] at hd

theorem sensorsListKey_ne_dataKey (sid b : String) :
    sensorsListKey sid ≠ sensorDataKey sid b := by
  intro h
  have hd := congrArg String.data h
  simp [sensorsListKey, sensorDataKey, String.data_append] at hd

/-! ## Demonstration inputs used by witnesses and counterexamples -/

/-- A small concrete upstream: two surveys returned in descending-id
order, one sensor on survey 1's single map, an image `"7"`. -/
def upDemo : Upstream :=
  { tokenResp := ⟨"tok", 3600⟩
    surveys := [⟨2, true, "B", "s2", "e2"⟩, ⟨1, false, "A", "s1", "e1"⟩]
    mapsFor := fun sid =>
      if sid = 1 then [⟨11, "M11", 5⟩]
      else if sid = 2 then [⟨21, "M21", 6⟩, ⟨22, "M22", 7⟩] else []
    sensorStates := fun sid => if sid = "1" then [⟨101, 9, "PIR", "ts1"⟩] else []
    mapSensors := fun mid => if mid = "11" then [⟨101, 3, 4⟩] else []
    images := fun iid => if iid = "7" then some ⟨"IMG", "image/png"⟩ else none }

/-- `upDemo` with an upstream token service returning an empty token. -/
def upEmptyTok : Upstream := { upDemo with tokenResp := ⟨"", 100⟩ }

/-! ## C2: non-digit image ids are rejected before any other action -/

/-- C2: for every image id containing a non-digit character, `get_image`
raises `BadOccupEyeRequest` and returns the state completely unchanged:
no cache read, no cache write, and (the trace being part of the state)
no upstream fetch of any kind. -/
theorem get_image_rejects_nondigit (up : Upstream) (s : ApiState)
    (iid : String) (h : ∃ c ∈ iid.data, ¬ c.isDigit = true) :
    get_image up iid s = (.error .badOccupEyeRequest, s) := by
  have hd : pyIsDigit iid = false := by
    cases hpd : pyIsDigit iid with
    | false => rfl
    | true =>
      exfalso
      obtain ⟨c, hc, hcd⟩ := h
      unfold pyIsDigit at hpd
      rw [Bool.and_eq_true, List.all_eq_true] at hpd
      exact hcd (hpd.2 c hc)
  unfold get_image
  rw [hd]
  simp [raise]

/-- Witness for C2 at the concrete input `"12a"`. -/
theorem get_image_rejects_nondigit_witness :
    (∃ c ∈ ("12a" : String).data, ¬ c.isDigit = true) ∧
      get_image upDemo "12a" (emptyState 0)
        = (.error .badOccupEyeRequest, emptyState 0) :=
  ⟨by decide, get_image_rejects_nondigit upDemo (emptyState 0) "12a" (by decide)⟩

/-! ## C9: the expiry comparison is strict -/

/-- C9: `token_valid` only treats the credential as expired when
`now > expiry` (strictly), so a credential whose expiry equals the
current instant is still valid and `get_bearer_token` performs no new
exchange at that instant (the state, hence the trace of upstream
exchanges, is returned unchanged). -/
theorem token_valid_strict_expiry (up : Upstream) (s : ApiState)
    (tok : String) (exp : Nat)
    (h1 : s.access_token = some tok) (h2 : tok ≠ "")
    (h3 : s.access_token_expiry = some exp) (h4 : s.now = exp) :
    token_valid s = .ok true ∧
      get_bearer_token up s = (.ok ("Bearer " ++ tok), s) := by
  have hv : token_valid s = .ok true := by
    unfold token_valid
    rw [h1, h3]
    have : ¬ s.now > exp := by omega
    simp [h2, this]
  refine ⟨hv, ?_⟩
  unfold get_bearer_token
  rw [hv]
  show bearer_return s = _
  unfold bearer_return
  rw [h1]
  rfl

/-- A state holding a credential whose expiry equals the clock (50). -/
def credAtExpiry : ApiState :=
  { emptyState 50 with
    access_token := some "tok",
    access_token_expiry := some 50 }

/-- Witness for C9: expiry exactly equal to the clock. -/
theorem token_valid_strict_expiry_witness :
    credAtExpiry.access_token = some "tok" ∧
    ("tok" : String) ≠ "" ∧
    credAtExpiry.access_token_expiry = some 50 ∧
    credAtExpiry.now = 50 ∧
    token_valid credAtExpiry = .ok true ∧
    get_bearer_token upDemo credAtExpiry = (.ok "Bearer tok", credAtExpiry) := by
  refine ⟨rfl, by decide, rfl, rfl, ?_, ?_⟩
  · exact (token_valid_strict_expiry upDemo credAtExpiry "tok" 50 rfl
      (by decide) rfl rfl).1
  · exact (token_valid_strict_expiry upDemo credAtExpiry "tok" 50 rfl
      (by decide) rfl rfl).2

/-! ## C3: idempotence of `get_bearer_token` under cache hit -/

/-- Helper: a successful `get_bearer_token` returns exactly
`"Bearer " ++` the access token stored in the state it returns. -/
theorem bearer_ok_shape (up : Upstream) (s : ApiState) (b : String)
    (s₁ : ApiState) (h : get_bearer_token up s = (.ok b, s₁)) :
    ∃ tok, s₁.access_token = some tok ∧ b = "Bearer " ++ tok := by
  unfold get_bearer_token at h
  rcases hv : token_valid s with e | valid <;> rw [hv] at h <;>
    simp only [raise, ok, Prod.mk.injEq] at h
  · exact absurd h.1 (by simp)
  · unfold bearer_return at h
    rcases ha : (if valid then s else get_token up s).access_token
        with _ | tok <;> rw [ha] at h <;>
      simp only [raise, ok, Prod.mk.injEq, Except.ok.injEq] at h
    · exact absurd h.1 (by simp)
    · exact ⟨tok, h.2 ▸ ha, h.1.symm⟩

/-- C3 (counterexample to the claim as stated): if the upstream exchange
returns an *empty* access token, a second `get_bearer_token` call made
at the very same instant — well within the stored expiry window of 100
time units — performs a second upstream exchange, because Python's
`not self.access_token` treats the cached empty string as missing. -/
theorem bearer_empty_token_refetches :
    (get_bearer_token upEmptyTok (emptyState 0)).1 = .ok "Bearer " ∧
    (get_bearer_token upEmptyTok (emptyState 0)).2.access_token_expiry
      = some 100 ∧
    (get_bearer_token upEmptyTok (emptyState 0)).2.now = 0 ∧
    countCall .tokenFetch (get_bearer_token upEmptyTok (emptyState 0)).2.trace
      = 1 ∧
    countCall .tokenFetch
      (get_bearer_token upEmptyTok
        (get_bearer_token upEmptyTok (emptyState 0)).2).2.trace = 2 := by
  refine ⟨rfl, rfl, rfl, rfl, rfl⟩

/-- C3 (amended): after `get_bearer_token` returns successfully *with a
non-empty stored access token*, a subsequent call made while the wall
clock is within the stored expiry window performs no upstream exchange
and returns the identical cached credential: the call is a pure cache
hit, returning its input state unchanged. -/
theorem bearer_idempotent_within_expiry (up : Upstream) (s : ApiState)
    (b : String) (s₁ : ApiState) (tok : String) (exp t' : Nat)
    (h : get_bearer_token up s = (.ok b, s₁))
    (htok : s₁.access_token = some tok) (hne : tok ≠ "")
    (hexp : s₁.access_token_expiry = some exp) (ht : t' ≤ exp) :
    get_bearer_token up { s₁ with now := t' }
      = (.ok b, { s₁ with now := t' }) := by
  obtain ⟨tok', htok', hb⟩ := bearer_ok_shape up s b s₁ h
  have htt : tok' = tok := by
    rw [htok] at htok'
    exact (Option.some.inj htok').symm
  subst htt
  have hv : token_valid { s₁ with now := t' } = .ok true := by
    unfold token_valid
    simp only [htok, hexp]
    have : ¬ t' > exp := by omega
    simp [hne, this]
  unfold get_bearer_token
  rw [hv]
  show bearer_return { s₁ with now := t' } = _
  unfold bearer_return
  rw [show ({ s₁ with now := t' } : ApiState).access_token = some tok'
    from htok]
  rw [hb]
  rfl

/-- Witness for the amended C3: a concrete first call, then a second
call 5 time units later (inside the 3600-unit window). -/
theorem bearer_idempotent_within_expiry_witness :
    (get_bearer_token upDemo (emptyState 0)
      = (.ok "Bearer tok", (get_bearer_token upDemo (emptyState 0)).2)) ∧
    ((get_bearer_token upDemo (emptyState 0)).2.access_token = some "tok") ∧
    (("tok" : String) ≠ "") ∧
    ((get_bearer_token upDemo (emptyState 0)).2.access_token_expiry
      = some 3600) ∧
    ((5 : Nat) ≤ 3600) ∧
    get_bearer_token upDemo
        { (get_bearer_token upDemo (emptyState 0)).2 with now := 5 }
      = (.ok "Bearer tok",
        { (get_bearer_token upDemo (emptyState 0)).2 with now := 5 }) := by
  refine ⟨rfl, rfl, by decide, rfl, by omega, ?_⟩
  exact bearer_idempotent_within_expiry upDemo (emptyState 0) "Bearer tok"
    (get_bearer_token upDemo (emptyState 0)).2 "tok" 3600 5 rfl rfl
    (by decide) rfl (by omega)

/-! ## C6: status TTL strictly shorter than static-data TTL -/

/-- C6: in the batch written by the sensor-state populator, every
sensor's status record is assigned TTL `SENSOR_STATUS_TTL` (60), its
static data record is assigned TTL `SURVEY_TTL` (86400) — these are the
only `EXPIRE`s the batch contains for those two keys — and the status
TTL is strictly shorter. -/
theorem sensor_status_ttl_lt_data_ttl (sid : String)
    (states : List UpSensorState) (sd : UpSensorState) (hmem : sd ∈ states) :
    (RCmd.expire (sensorStatusKey sid (Nat.repr sd.HardwareID))
        SENSOR_STATUS_TTL ∈ sensorStatesCmds sid states) ∧
    (RCmd.expire (sensorDataKey sid (Nat.repr sd.HardwareID))
        SURVEY_TTL ∈ sensorStatesCmds sid states) ∧
    (∀ t, RCmd.expire (sensorStatusKey sid (Nat.repr sd.HardwareID)) t
        ∈ sensorStatesCmds sid states → t = SENSOR_STATUS_TTL) ∧
    (∀ t, RCmd.expire (sensorDataKey sid (Nat.repr sd.HardwareID)) t
        ∈ sensorStatesCmds sid states → t = SURVEY_TTL) ∧
    SENSOR_STATUS_TTL < SURVEY_TTL := by
  refine ⟨?_, ?_, ?_, ?_, by decide⟩
  · unfold sensorStatesCmds
    refine List.mem_cons_of_mem _ (List.mem_append_left _ ?_)
    exact List.mem_flatMap.mpr ⟨sd, hmem, by simp⟩
  · unfold sensorStatesCmds
    refine List.mem_cons_of_mem _ (List.mem_append_left _ ?_)
    exact List.mem_flatMap.mpr ⟨sd, hmem, by simp⟩
  · intro t hm
    unfold sensorStatesCmds at hm
    rcases List.mem_cons.mp hm with hc | hm'
    · exact absurd hc (by simp)
    rcases List.mem_append.mp hm' with hf | hl
    · obtain ⟨sd', _, hin⟩ := List.mem_flatMap.mp hf
      simp only [List.mem_cons, List.not_mem_nil, or_false] at hin
      rcases hin with h1 | h1 | h1 | h1 | h1
      · exact absurd h1 (by simp)
      · exact absurd h1 (by simp)
      · exact absurd h1 (by simp)
      · -- an `expire` of a *data* key can never hit the status key
        exfalso
        have hk := (RCmd.expire.injEq ..).mp h1.symm
        exact sensorDataKey_ne_statusKey sid (Nat.repr sd'.HardwareID)
          (Nat.repr sd.HardwareID) (natRepr_colon_free _)
          (natRepr_colon_free _) hk.1
      · exact ((RCmd.expire.injEq ..).mp h1.symm).2.symm
    · simp only [List.mem_singleton] at hl
      exfalso
      have hk := (RCmd.expire.injEq ..).mp hl.symm
      exact sensorsListKey_ne_statusKey sid (Nat.repr sd.HardwareID) hk.1
  · intro t hm
    unfold sensorStatesCmds at hm
    rcases List.mem_cons.mp hm with hc | hm'
    · exact absurd hc (by simp)
    rcases List.mem_append.mp hm' with hf | hl
    · obtain ⟨sd', _, hin⟩ := List.mem_flatMap.mp hf
      simp only [List.mem_cons, List.not_mem_nil, or_false] at hin
      rcases hin with h1 | h1 | h1 | h1 | h1
      · exact absurd h1 (by simp)
      · exact absurd h1 (by simp)
      · exact absurd h1 (by simp)
      · exact ((RCmd.expire.injEq ..).mp h1.symm).2.symm
      · -- an `expire` of a *status* key can never hit the data key
        exfalso
        have hk := (RCmd.expire.injEq ..).mp h1.symm
        exact sensorDataKey_ne_statusKey sid (Nat.repr sd.HardwareID)
          (Nat.repr sd'.HardwareID) (natRepr_colon_free _)
          (natRepr_colon_free _) hk.1.symm
    · simp only [List.mem_singleton] at hl
      exfalso
      have hk := (RCmd.expire.injEq ..).mp hl.symm
      exact sensorsListKey_ne_dataKey sid (Nat.repr sd.HardwareID) hk.1

/-- Witness for C6 on a concrete one-sensor batch. -/
theorem sensor_status_ttl_lt_data_ttl_witness :
    ((⟨101, 9, "PIR", "ts1"⟩ : UpSensorState) ∈
      [(⟨101, 9, "PIR", "ts1"⟩ : UpSensorState)]) ∧
    ((RCmd.expire (sensorStatusKey "1" (Nat.repr 101)) SENSOR_STATUS_TTL
        ∈ sensorStatesCmds "1" [⟨101, 9, "PIR", "ts1"⟩]) ∧
     (RCmd.expire (sensorDataKey "1" (Nat.repr 101)) SURVEY_TTL
        ∈ sensorStatesCmds "1" [⟨101, 9, "PIR", "ts1"⟩]) ∧
     (∀ t, RCmd.expire (sensorStatusKey "1" (Nat.repr 101)) t
        ∈ sensorStatesCmds "1" [⟨101, 9, "PIR", "ts1"⟩] →
          t = SENSOR_STATUS_TTL) ∧
     (∀ t, RCmd.expire (sensorDataKey "1" (Nat.repr 101)) t
        ∈ sensorStatesCmds "1" [⟨101, 9, "PIR", "ts1"⟩] → t = SURVEY_TTL) ∧
     SENSOR_STATUS_TTL < SURVEY_TTL) :=
  ⟨by decide,
    sensor_status_ttl_lt_data_ttl "1" [⟨101, 9, "PIR", "ts1"⟩]
      ⟨101, 9, "PIR", "ts1"⟩ (by decide)⟩

/-! ## C10: empty sensor list plus `includeStates` crashes with IndexError -/

theorem lrange_nil_of_llen_zero (st : Store) (now : Nat) (k : String)
    (stop : Int) (h : llen st now k = 0) : lrange st now k stop = [] := by
  unfold llen at h
  unfold lrange
  rcases hv : liveVal st now k with _ | ⟨v, d⟩
  · rfl
  · rw [hv] at h
    cases v with
    | str s => rfl
    | hash fs => rfl
    | list xs =>
      have : xs = [] := List.length_eq_zero.mp h
      simp [this]

/-- The single-map body of `get_survey_sensors` hits
`sensor_hw_ids[0]` on an empty list (occupeye.py:525) when the per-map
sensor list is empty even after the lazy position refresh. -/
theorem oneMap_empty_index_error (up : Upstream) (s s₁ : ApiState)
    (sid mid0 : String)
    (h4 : llen s.store s.now (mapSensorsListKey sid mid0) = 0)
    (h5 : cache_sensors_for_map up sid mid0 s = (.ok (), s₁))
    (h6 : llen s₁.store s₁.now (mapSensorsListKey sid mid0) = 0) :
    oneMap up sid true mid0 s = (.error .indexError, s₁) := by
  unfold oneMap
  rw [if_pos h4, h5]
  simp only []
  rw [lrange_nil_of_llen_zero _ _ _ _ h6]
  simp [propsLoop, raise]

/-- C10: with states requested, a digit survey id whose first cached map
has an empty sensor list — still empty after the lazy
`_cache_sensors_for_map` refresh — makes `get_survey_sensors` raise an
unguarded `IndexError` (not `BadOccupEyeRequest`): the code implicitly
requires every map to have at least one sensor when states are
requested. -/
theorem get_survey_sensors_empty_map_index_error
    (up : Upstream) (s s₁ : ApiState) (sid mid0 : String) (rest : List String)
    (h1 : pyIsDigit sid = true)
    (h2 : llen s.store s.now (surveyMapsKey sid) ≠ 0)
    (h3 : lrange s.store s.now (surveyMapsKey sid)
      (llen s.store s.now (surveyMapsKey sid) : Int) = mid0 :: rest)
    (h4 : llen s.store s.now (mapSensorsListKey sid mid0) = 0)
    (h5 : cache_sensors_for_map up sid mid0 s = (.ok (), s₁))
    (h6 : llen s₁.store s₁.now (mapSensorsListKey sid mid0) = 0) :
    get_survey_sensors up sid true s = (.error .indexError, s₁) := by
  unfold get_survey_sensors
  rw [if_neg (show ¬ pyIsDigit sid = false by simp [h1]), if_neg h2]
  simp only [ok]
  rw [if_neg h2, h3]
  unfold mapsLoop
  rw [oneMap_empty_index_error up s s₁ sid mid0 h4 h5 h6]
  rfl

/-- A state whose cache already lists one map (`"7"`) for survey `"3"`;
upstream returns no sensors for map `"7"`. -/
def mapNoSensors : ApiState :=
  { emptyState 0 with store := [(surveyMapsKey "3", (.list ["7"], none))] }

/-- Witness for C10 at a concrete state and upstream. -/
theorem get_survey_sensors_empty_map_index_error_witness :
    pyIsDigit "3" = true ∧
    llen mapNoSensors.store mapNoSensors.now (surveyMapsKey "3") ≠ 0 ∧
    lrange mapNoSensors.store mapNoSensors.now (surveyMapsKey "3")
      (llen mapNoSensors.store mapNoSensors.now (surveyMapsKey "3") : Int)
      = ["7"] ∧
    llen mapNoSensors.store mapNoSensors.now
      (mapSensorsListKey "3" "7") = 0 ∧
    cache_sensors_for_map upDemo "3" "7" mapNoSensors
      = (.ok (), (cache_sensors_for_map upDemo "3" "7" mapNoSensors).2) ∧
    llen (cache_sensors_for_map upDemo "3" "7" mapNoSensors).2.store
      (cache_sensors_for_map upDemo "3" "7" mapNoSensors).2.now
      (mapSensorsListKey "3" "7") = 0 ∧
    get_survey_sensors upDemo "3" true mapNoSensors
      = (.error .indexError,
        (cache_sensors_for_map upDemo "3" "7" mapNoSensors).2) := by
  refine ⟨by decide, by decide, by decide, by decide, rfl, by decide, ?_⟩
  exact get_survey_sensors_empty_map_index_error upDemo mapNoSensors
    (cache_sensors_for_map upDemo "3" "7" mapNoSensors).2 "3" "7" []
    (by decide) (by decide) (by decide) (by decide) rfl (by decide)

/-! ## C1: the first-sensor status probe never hits (code bug) -/

/-- The state after one full `get_survey_sensors("1", True)` call from an
empty cache: maps, sensor positions and sensor states for survey `"1"`
are all freshly cached (wall clock unchanged, so nothing has expired). -/
def warmState : ApiState :=
  (get_survey_sensors upDemo "1" true (emptyState 0)).2

/-- C1 (evaluation of the code at the failing input): after a first call
has cached everything — the status record of the first (and only) sensor
of the only map EXISTS, the wall clock has not moved — a second
`get_survey_sensors("1", True)` call nevertheless triggers another
full-survey state refresh.  The probe at occupeye.py:523-526 reads
`occupeye:surveys:1:maps:11:sensors:101:status`, a key that
`_cache_all_survey_sensor_states` never writes (it writes
`occupeye:surveys:1:sensors:101:status`), so the probe always misses,
contradicting both the claim and the comment at occupeye.py:519-522. -/
theorem status_probe_always_misses :
    -- the first call performed exactly one full-survey state refresh
    countCall (.statesFetch "1") warmState.trace = 1 ∧
    -- the first sensor's status record exists in the warm cache
    rexists warmState.store warmState.now
      (sensorStatusKey "1" (Nat.repr 101)) = true ∧
    -- but the key the code probes does not
    rget warmState.store warmState.now
      (probeStatusKey "1" "11" (Nat.repr 101)) = .ok none ∧
    -- so a second call fires a second full-survey state refresh
    countCall (.statesFetch "1")
      (get_survey_sensors upDemo "1" true warmState).2.trace = 2 ∧
    -- (the second call itself succeeds)
    (get_survey_sensors upDemo "1" true warmState).1.isOk = true := by
  refine ⟨by decide, by decide, rfl, by decide, rfl⟩

/-! ## Pointwise store reasoning

The effect of a command at a key depends only on the store's binding at
that key: `lookupD_applyCmd` characterises the binding after a command,
and equal bindings before a batch give equal bindings after it. -/

/-- The new binding a command installs at its own key, as a function of
the old binding there (mirrors the branches of `applyCmd`). -/
def cmdNew (now : Nat) (c : RCmd) (old : Option (RVal × Option Nat)) :
    Option (RVal × Option Nat) :=
  match c with
  | .del _ => none
  | .set _ v => some (.str v, none)
  | .hmset _ fs =>
    match liveOf now old with
    | some (.hash o, d) => some (.hash (updFields o fs), d)
    | none => some (.hash (updFields [] fs), none)
    | some _ => old
  | .rpush _ v =>
    match liveOf now old with
    | some (.list xs, d) => some (.list (xs ++ [v]), d)
    | none => some (.list [v], none)
    | some _ => old
  | .lpush _ v =>
    match liveOf now old with
    | some (.list xs, d) => some (.list (v :: xs), d)
    | none => some (.list [v], none)
    | some _ => old
  | .expire _ ttl =>
    match liveOf now old with
    | some (v, _) => some (v, some (now + ttl))
    | none => old

theorem liveVal_eq (st : Store) (now : Nat) (k : String) :
    liveVal st now k = liveOf now (lookupD st k) := rfl

theorem lookupD_applyCmd (now : Nat) (st : Store) (c : RCmd) (k : String) :
    lookupD (applyCmd now st c) k
      = if c.key = k then cmdNew now c (lookupD st k) else lookupD st k := by
  by_cases hk : c.key = k
  · rw [if_pos hk]
    cases c with
    | del k0 =>
      have hk0 : k0 = k := hk
      rw [← hk0]
      exact lookupD_eraseK_self st k0
    | set k0 v =>
      have hk0 : k0 = k := hk
      rw [← hk0]
      exact lookupD_setK_self st k0 _
    | hmset k0 fs =>
      have hk0 : k0 = k := hk
      rw [← hk0]
      show lookupD (match liveVal st now k0 with
        | some (.hash o, d) => setK st k0 (.hash (updFields o fs), d)
        | none => setK st k0 (.hash (updFields [] fs), none)
        | some _ => st) k0 = _
      rw [liveVal_eq]
      rcases hx : liveOf now (lookupD st k0) with _ | ⟨v, d⟩
      · rw [show cmdNew now (.hmset k0 fs) (lookupD st k0)
            = some (.hash (updFields [] fs), none) from by
          unfold cmdNew; rw [hx]]
        exact lookupD_setK_self st k0 _
      · cases v with
        | hash o =>
          rw [show cmdNew now (.hmset k0 fs) (lookupD st k0)
              = some (.hash (updFields o fs), d) from by
            unfold cmdNew; rw [hx]]
          exact lookupD_setK_self st k0 _
        | str s0 =>
          rw [show cmdNew now (.hmset k0 fs) (lookupD st k0)
              = lookupD st k0 from by unfold cmdNew; rw [hx]]
        | list xs =>
          rw [show cmdNew now (.hmset k0 fs) (lookupD st k0)
              = lookupD st k0 from by unfold cmdNew; rw [hx]]
    | rpush k0 v =>
      have hk0 : k0 = k := hk
      rw [← hk0]
      show lookupD (match liveVal st now k0 with
        | some (.list xs, d) => setK st k0 (.list (xs ++ [v]), d)
        | none => setK st k0 (.list [v], none)
        | some _ => st) k0 = _
      rw [liveVal_eq]
      rcases hx : liveOf now (lookupD st k0) with _ | ⟨v', d⟩
      · rw [show cmdNew now (.rpush k0 v) (lookupD st k0)
            = some (.list [v], none) from by unfold cmdNew; rw [hx]]
        exact lookupD_setK_self st k0 _
      · cases v' with
        | list xs =>
          rw [show cmdNew now (.rpush k0 v) (lookupD st k0)
              = some (.list (xs ++ [v]), d) from by unfold cmdNew; rw [hx]]
          exact lookupD_setK_self st k0 _
        | str s0 =>
          rw [show cmdNew now (.rpush k0 v) (lookupD st k0)
              = lookupD st k0 from by unfold cmdNew; rw [hx]]
        | hash fs =>
          rw [show cmdNew now (.rpush k0 v) (lookupD st k0)
              = lookupD st k0 from by unfold cmdNew; rw [hx]]
    | lpush k0 v =>
      have hk0 : k0 = k := hk
      rw [← hk0]
      show lookupD (match liveVal st now k0 with
        | some (.list xs, d) => setK st k0 (.list (v :: xs), d)
        | none => setK st k0 (.list [v], none)
        | some _ => st) k0 = _
      rw [liveVal_eq]
      rcases hx : liveOf now (lookupD st k0) with _ | ⟨v', d⟩
      · rw [show cmdNew now (.lpush k0 v) (lookupD st k0)
            = some (.list [v], none) from by unfold cmdNew; rw [hx]]
        exact lookupD_setK_self st k0 _
      · cases v' with
        | list xs =>
          rw [show cmdNew now (.lpush k0 v) (lookupD st k0)
              = some (.list (v :: xs), d) from by unfold cmdNew; rw [hx]]
          exact lookupD_setK_self st k0 _
        | str s0 =>
          rw [show cmdNew now (.lpush k0 v) (lookupD st k0)
              = lookupD st k0 from by unfold cmdNew; rw [hx]]
        | hash fs =>
          rw [show cmdNew now (.lpush k0 v) (lookupD st k0)
              = lookupD st k0 from by unfold cmdNew; rw [hx]]
    | expire k0 ttl =>
      have hk0 : k0 = k := hk
      rw [← hk0]
      show lookupD (match liveVal st now k0 with
        | some (v, _) => setK st k0 (v, some (now + ttl))
        | none => st) k0 = _
      rw [liveVal_eq]
      rcases hx : liveOf now (lookupD st k0) with _ | ⟨v, d⟩
      · rw [show cmdNew now (.expire k0 ttl) (lookupD st k0)
            = lookupD st k0 from by unfold cmdNew; rw [hx]]
      · rw [show cmdNew now (.expire k0 ttl) (lookupD st k0)
            = some (v, some (now + ttl)) from by unfold cmdNew; rw [hx]]
        exact lookupD_setK_self st k0 _
  · rw [if_neg hk]
    exact lookupD_applyCmd_ne now st c k hk

theorem lookupD_applyCmd_pointwise (now : Nat) (st₁ st₂ : Store) (c : RCmd)
    (k : String) (h : lookupD st₁ k = lookupD st₂ k) :
    lookupD (applyCmd now st₁ c) k = lookupD (applyCmd now st₂ c) k := by
  rw [lookupD_applyCmd, lookupD_applyCmd, h]

theorem lookupD_applyCmds_pointwise (now : Nat) (st₁ st₂ : Store)
    (cmds : List RCmd) (k : String) (h : lookupD st₁ k = lookupD st₂ k) :
    lookupD (applyCmds now st₁ cmds) k = lookupD (applyCmds now st₂ cmds) k := by
  induction cmds generalizing st₁ st₂ with
  | nil => exact h
  | cons c cs ih =>
    rw [applyCmds_cons, applyCmds_cons]
    exact ih _ _ (lookupD_applyCmd_pointwise now st₁ st₂ c k h)

/-! ## Distinctness of the survey-family cache keys -/

/-- Every survey-family key extends the fixed text `"occupeye:surveys"`. -/
def isSurvShape (k : String) : Prop := ∃ r, k = "occupeye:surveys" ++ r

theorem survShape_surveysKey : isSurvShape surveysKey :=
  ⟨"", by apply String.ext; simp [surveysKey, String.data_append]⟩

theorem survShape_surveyKey (sid : String) : isSurvShape (surveyKey sid) :=
  ⟨":" ++ sid, by apply String.ext; simp [surveyKey, String.data_append]⟩

theorem survShape_surveyMapsKey (sid : String) :
    isSurvShape (surveyMapsKey sid) :=
  ⟨":" ++ sid ++ ":maps", by
    apply String.ext; simp [surveyMapsKey, String.data_append]⟩

theorem survShape_surveyMapKey (sid mid : String) :
    isSurvShape (surveyMapKey sid mid) :=
  ⟨":" ++ sid ++ ":maps:" ++ mid, by
    apply String.ext; simp [surveyMapKey, String.data_append]⟩

/-- A survey-family key is never one of the two token keys. -/
theorem survShape_ne_token (k : String) (h : isSurvShape k) :
    k ≠ tokenKey ∧ k ≠ tokenExpiryKey := by
  obtain ⟨r, hr⟩ := h
  subst hr
  constructor
  · have : tokenKey = "occupeye:a" ++ "ccess_token" := by decide
    rw [this, show ("occupeye:surveys" : String) ++ r
      = "occupeye:s" ++ ("urveys" ++ r) from by
        apply String.ext; simp [String.data_append]]
    exact str_ne_of_ne_head _ _ _ _ (by decide) (by decide)
  · have : tokenExpiryKey = "occupeye:a" ++ "ccess_token_expiry" := by decide
    rw [this, show ("occupeye:surveys" : String) ++ r
      = "occupeye:s" ++ ("urveys" ++ r) from by
        apply String.ext; simp [String.data_append]]
    exact str_ne_of_ne_head _ _ _ _ (by decide) (by decide)

theorem surveysKey_ne_surveyKey (x : String) : surveysKey ≠ surveyKey x := by
  intro h
  have hd := congrArg (fun s => s.data.length) h
  simp [surveysKey, surveyKey, String.data_append] at hd

theorem surveysKey_ne_surveyMapsKey (x : String) :
    surveysKey ≠ surveyMapsKey x := by
  intro h
  have hd := congrArg (fun s => s.data.length) h
  simp [surveysKey, surveyMapsKey, String.data_append] at hd

theorem surveysKey_ne_surveyMapKey (x y : String) :
    surveysKey ≠ surveyMapKey x y := by
  intro h
  have hd := congrArg (fun s => s.data.length) h
  simp [surveysKey, surveyMapKey, String.data_append] at hd

theorem surveyKey_ne_surveyMapsKey (a : Nat) (x : String) :
    surveyKey (Nat.repr a) ≠ surveyMapsKey x := by
  intro h
  have hd := congrArg String.data h
  simp [surveyKey, surveyMapsKey, String.data_append] at hd
  have hc := natRepr_colon_free a
  rw [hd] at hc
  simp at hc

theorem surveyKey_ne_surveyMapKey (a : Nat) (x y : String) :
    surveyKey (Nat.repr a) ≠ surveyMapKey x y := by
  intro h
  have hd := congrArg String.data h
  simp [surveyKey, surveyMapKey, String.data_append] at hd
  have hc := natRepr_colon_free a
  rw [hd] at hc
  simp at hc

theorem surveyKey_inj (a b : Nat)
    (h : surveyKey (Nat.repr a) = surveyKey (Nat.repr b)) : a = b := by
  have hd := congrArg String.data h
  simp [surveyKey, String.data_append] at hd
  exact natRepr_inj (String.ext hd)

theorem surveyMapsKey_inj (a b : Nat)
    (h : surveyMapsKey (Nat.repr a) = surveyMapsKey (Nat.repr b)) : a = b := by
  have hd := congrArg String.data h
  simp [surveyMapsKey, String.data_append] at hd
  exact natRepr_inj (String.ext hd)

theorem surveyMapsKey_ne_surveyMapKey (a : Nat) (x y : String)
    (hx : ':' ∉ x.data) : surveyMapsKey (Nat.repr a) ≠ surveyMapKey x y := by
  intro h
  have hd := congrArg String.data h
  simp [surveyMapsKey, surveyMapKey, String.data_append] at hd
  obtain ⟨_, h2⟩ := sep_split (natRepr_colon_free a) hx hd
  have := congrArg List.length h2
  simp at this

theorem surveyMapKey_inj (a b : Nat) (x y : String)
    (_hx : ':' ∉ x.data) (_hy : ':' ∉ y.data)
    (h : surveyMapKey (Nat.repr a) x = surveyMapKey (Nat.repr b) y) :
    a = b ∧ x = y := by
  have hd := congrArg String.data h
  simp [surveyMapKey, String.data_append] at hd
  obtain ⟨h1, h2⟩ := sep_split (natRepr_colon_free a) (natRepr_colon_free b) hd
  have h3 : ("maps:" : String).data ++ x.data
      = ("maps:" : String).data ++ y.data := by
    simpa using h2
  exact ⟨natRepr_inj (String.ext h1),
    String.ext (List.append_cancel_left h3)⟩

/-! ## Batch effects as folds over the command list

`lookupD_applyCmds_fold` turns "what does this key hold after the
pipeline" into a pure fold over the buffered commands, with the rest of
the store out of the picture. -/

/-- One step of the per-key fold. -/
def keyStep (now : Nat) (k : String) (o : Option (RVal × Option Nat))
    (c : RCmd) : Option (RVal × Option Nat) :=
  if c.key = k then cmdNew now c o else o

theorem lookupD_applyCmds_fold (now : Nat) (st : Store) (cmds : List RCmd)
    (k : String) :
    lookupD (applyCmds now st cmds) k
      = cmds.foldl (keyStep now k) (lookupD st k) := by
  induction cmds generalizing st with
  | nil => rfl
  | cons c cs ih =>
    rw [applyCmds_cons, ih, List.foldl_cons]
    unfold keyStep
    rw [lookupD_applyCmd]

theorem keyFold_frame (now : Nat) (k : String) (cmds : List RCmd)
    (h : ∀ c ∈ cmds, c.key ≠ k) (o : Option (RVal × Option Nat)) :
    cmds.foldl (keyStep now k) o = o := by
  induction cmds generalizing o with
  | nil => rfl
  | cons c cs ih =>
    rw [List.foldl_cons]
    unfold keyStep
    rw [if_neg (h c (List.mem_cons_self ..))]
    exact ih (fun c' hc' => h c' (List.mem_cons_of_mem _ hc')) o

theorem keyFold_append (now : Nat) (k : String) (a b : List RCmd)
    (o : Option (RVal × Option Nat)) :
    (a ++ b).foldl (keyStep now k) o
      = b.foldl (keyStep now k) (a.foldl (keyStep now k) o) :=
  List.foldl_append ..

theorem cmdNew_hmset_of_none (now : Nat) (k : String)
    (fs : List (String × String)) (o : Option (RVal × Option Nat))
    (ho : liveOf now o = none) :
    cmdNew now (.hmset k fs) o = some (.hash (updFields [] fs), none) := by
  unfold cmdNew
  rw [ho]

theorem cmdNew_lpush_of_none (now : Nat) (k v : String)
    (o : Option (RVal × Option Nat)) (ho : liveOf now o = none) :
    cmdNew now (.lpush k v) o = some (.list [v], none) := by
  unfold cmdNew
  rw [ho]

theorem cmdNew_lpush_of_list (now : Nat) (k v : String)
    (o : Option (RVal × Option Nat)) (xs : List String) (d : Option Nat)
    (ho : liveOf now o = some (.list xs, d)) :
    cmdNew now (.lpush k v) o = some (.list (v :: xs), d) := by
  unfold cmdNew
  rw [ho]

theorem cmdNew_expire_of_some (now : Nat) (k : String) (ttl : Nat)
    (o : Option (RVal × Option Nat)) (v : RVal) (d : Option Nat)
    (ho : liveOf now o = some (v, d)) :
    cmdNew now (.expire k ttl) o = some (v, some (now + ttl)) := by
  unfold cmdNew
  rw [ho]

/-! ## Effect of the survey/map populator batches on the store -/

/-- The survey record as it ends up in Redis (occupeye.py:203-212). -/
def surveyRec (sv : UpSurvey) : List (String × String) :=
  [("id", Nat.repr sv.SurveyID), ("active", pyStrBool sv.Active),
   ("name", sv.Name), ("start_time", sv.StartTime), ("end_time", sv.EndTime)]

/-- The map record as it ends up in Redis (occupeye.py:154-161). -/
def mapRec (m : UpMap) : List (String × String) :=
  [("id", Nat.repr m.MapID), ("name", m.MapName),
   ("image_id", Nat.repr m.ImageID)]

theorem updFields_surveyRec (sv : UpSurvey) :
    updFields [] [("id", Nat.repr sv.SurveyID), ("active", pyStrBool sv.Active),
      ("name", sv.Name), ("start_time", sv.StartTime),
      ("end_time", sv.EndTime)] = surveyRec sv := by
  simp [updFields, updD, surveyRec]

theorem updFields_mapRec (m : UpMap) :
    updFields [] [("id", Nat.repr m.MapID), ("name", m.MapName),
      ("image_id", Nat.repr m.ImageID)] = mapRec m := by
  simp [updFields, updD, mapRec]

/-- The three commands buffered per map by `_cache_maps_for_survey`. -/
def mapTriple (i : Nat) (m : UpMap) : List RCmd :=
  [.hmset (surveyMapKey (Nat.repr i) (Nat.repr m.MapID))
     [("id", Nat.repr m.MapID), ("name", m.MapName),
      ("image_id", Nat.repr m.ImageID)],
   .rpush (surveyMapsKey (Nat.repr i)) (Nat.repr m.MapID),
   .expire (surveyMapKey (Nat.repr i) (Nat.repr m.MapID)) SURVEY_TTL]

theorem mapsForSurveyCmds_eq (i : Nat) (ms : List UpMap) :
    mapsForSurveyCmds i ms
      = .del (surveyMapsKey (Nat.repr i)) :: ms.flatMap (mapTriple i)
        ++ [.expire (surveyMapsKey (Nat.repr i)) SURVEY_TTL] := rfl

/-- Keys touched by one survey's map-cache pipeline. -/
theorem mapsForSurveyCmds_keys (i : Nat) (ms : List UpMap) :
    ∀ c ∈ mapsForSurveyCmds i ms,
      c.key = surveyMapsKey (Nat.repr i) ∨
      ∃ m ∈ ms, c.key = surveyMapKey (Nat.repr i) (Nat.repr m.MapID) := by
  intro c hc
  unfold mapsForSurveyCmds at hc
  rcases List.mem_cons.mp hc with hc | hc
  · left; rw [hc]; rfl
  rcases List.mem_append.mp hc with hc | hc
  · obtain ⟨m, hm, hin⟩ := List.mem_flatMap.mp hc
    simp only [List.mem_cons, List.not_mem_nil, or_false] at hin
    rcases hin with h1 | h1 | h1 <;> rw [h1]
    · exact Or.inr ⟨m, hm, rfl⟩
    · exact Or.inl rfl
    · exact Or.inr ⟨m, hm, rfl⟩
  · simp only [List.mem_singleton] at hc
    left; rw [hc]; rfl

/-- Keys touched by the per-survey commands of the outer pipeline. -/
theorem surveyCmds_keys (sv : UpSurvey) :
    ∀ c ∈ surveyCmds sv,
      c.key = surveyKey (Nat.repr sv.SurveyID) ∨ c.key = surveysKey := by
  intro c hc
  unfold surveyCmds at hc
  simp only [List.mem_cons, List.not_mem_nil, or_false] at hc
  rcases hc with h1 | h1 | h1 <;> rw [h1]
  · exact Or.inl rfl
  · exact Or.inl rfl
  · exact Or.inr rfl

/-- Map-id accumulation of the per-map triples on the map list key. -/
theorem mapTriples_fold_listKey (now : Nat) (i : Nat) :
    ∀ (ms : List UpMap) (acc : List String),
      (ms.flatMap (mapTriple i)).foldl (keyStep now (surveyMapsKey (Nat.repr i)))
        (some (.list acc, none))
      = some (.list (acc ++ ms.map (fun m => Nat.repr m.MapID)), none) := by
  intro ms
  induction ms with
  | nil => intro acc; simp
  | cons m rest ih =>
    intro acc
    rw [List.flatMap_cons, keyFold_append]
    have hne : surveyMapKey (Nat.repr i) (Nat.repr m.MapID)
        ≠ surveyMapsKey (Nat.repr i) :=
      fun hh => surveyMapsKey_ne_surveyMapKey i (Nat.repr i)
        (Nat.repr m.MapID) (natRepr_colon_free i) hh.symm
    have h1 : (mapTriple i m).foldl (keyStep now (surveyMapsKey (Nat.repr i)))
        (some (.list acc, none))
        = some (.list (acc ++ [Nat.repr m.MapID]), none) := by
      unfold mapTriple
      simp only [List.foldl_cons, List.foldl_nil]
      unfold keyStep
      simp only [RCmd.key]
      simp [hne, cmdNew, liveOf]
    rw [h1, ih]
    simp

/-- Effect of one survey's full map-cache pipeline on that survey's map
list: rebuilt from scratch (`DEL` first) to exactly the upstream map
ids in order, with TTL `SURVEY_TTL`; absent when upstream has no maps
(the trailing `EXPIRE` is a no-op on a missing key). -/
theorem mapsBatch_listKey (now : Nat) (i : Nat) (ms : List UpMap)
    (o : Option (RVal × Option Nat)) :
    (mapsForSurveyCmds i ms).foldl (keyStep now (surveyMapsKey (Nat.repr i))) o
    = if ms.isEmpty then none
      else some (.list (ms.map (fun m => Nat.repr m.MapID)),
        some (now + SURVEY_TTL)) := by
  rw [mapsForSurveyCmds_eq, List.cons_append, List.foldl_cons]
  have hdel : keyStep now (surveyMapsKey (Nat.repr i)) o
      (.del (surveyMapsKey (Nat.repr i))) = none := by
    unfold keyStep
    simp only [RCmd.key]
    simp [cmdNew]
  rw [hdel, keyFold_append]
  cases ms with
  | nil => simp [keyStep, cmdNew, liveOf]
  | cons m rest =>
    rw [List.flatMap_cons, keyFold_append]
    have hne : surveyMapKey (Nat.repr i) (Nat.repr m.MapID)
        ≠ surveyMapsKey (Nat.repr i) :=
      fun hh => surveyMapsKey_ne_surveyMapKey i (Nat.repr i)
        (Nat.repr m.MapID) (natRepr_colon_free i) hh.symm
    have h1 : (mapTriple i m).foldl (keyStep now (surveyMapsKey (Nat.repr i)))
        none = some (.list [Nat.repr m.MapID], none) := by
      unfold mapTriple
      simp only [List.foldl_cons, List.foldl_nil]
      unfold keyStep
      simp only [RCmd.key]
      simp [hne, cmdNew, liveOf]
    rw [h1, mapTriples_fold_listKey now i rest [Nat.repr m.MapID]]
    simp only [List.foldl_cons, List.foldl_nil]
    unfold keyStep
    simp only [RCmd.key]
    simp [cmdNew, liveOf]

theorem surveyMapKey_ne_of_mid_ne (i a b : Nat) (h : a ≠ b) :
    surveyMapKey (Nat.repr i) (Nat.repr a)
      ≠ surveyMapKey (Nat.repr i) (Nat.repr b) := fun hh =>
  h (natRepr_inj ((surveyMapKey_inj i i (Nat.repr a) (Nat.repr b)
    (natRepr_colon_free a) (natRepr_colon_free b) hh).2))

theorem surveyMapKey_ne_of_sid_ne (a b : Nat) (x y : String)
    (hx : ':' ∉ x.data) (hy : ':' ∉ y.data) (h : a ≠ b) :
    surveyMapKey (Nat.repr a) x ≠ surveyMapKey (Nat.repr b) y := fun hh =>
  h ((surveyMapKey_inj a b x y hx hy hh).1)

theorem surveyMapsKey_ne_of_ne (a b : Nat) (h : a ≠ b) :
    surveyMapsKey (Nat.repr a) ≠ surveyMapsKey (Nat.repr b) := fun hh =>
  h (surveyMapsKey_inj a b hh)

theorem surveyKey_ne_of_ne (a b : Nat) (h : a ≠ b) :
    surveyKey (Nat.repr a) ≠ surveyKey (Nat.repr b) := fun hh =>
  h (surveyKey_inj a b hh)

theorem mapTriple_keys (i : Nat) (m : UpMap) :
    ∀ c ∈ mapTriple i m,
      c.key = surveyMapKey (Nat.repr i) (Nat.repr m.MapID) ∨
      c.key = surveyMapsKey (Nat.repr i) := by
  intro c hc
  unfold mapTriple at hc
  simp only [List.mem_cons, List.not_mem_nil, or_false] at hc
  rcases hc with h1 | h1 | h1 <;> rw [h1]
  · exact Or.inl rfl
  · exact Or.inr rfl
  · exact Or.inl rfl

/-- Effect of one survey's map pipeline on a single map-record key:
created fresh from the upstream data (the key was absent beforehand)
with TTL `SURVEY_TTL`. -/
theorem mapsBatch_mapKey (now : Nat) (i : Nat) (ms : List UpMap) (m : UpMap)
    (hm : m ∈ ms) (hnd : (ms.map (fun x => x.MapID)).Nodup)
    (o : Option (RVal × Option Nat)) (ho : liveOf now o = none) :
    (mapsForSurveyCmds i ms).foldl
      (keyStep now (surveyMapKey (Nat.repr i) (Nat.repr m.MapID))) o
    = some (.hash (mapRec m), some (now + SURVEY_TTL)) := by
  have hLne : surveyMapsKey (Nat.repr i)
      ≠ surveyMapKey (Nat.repr i) (Nat.repr m.MapID) :=
    surveyMapsKey_ne_surveyMapKey i (Nat.repr i) (Nat.repr m.MapID)
      (natRepr_colon_free i)
  rw [mapsForSurveyCmds_eq, List.cons_append, List.foldl_cons]
  have hdel : keyStep now (surveyMapKey (Nat.repr i) (Nat.repr m.MapID)) o
      (.del (surveyMapsKey (Nat.repr i))) = o := by
    unfold keyStep
    simp only [RCmd.key]
    rw [if_neg hLne]
  rw [hdel, keyFold_append]
  have hmain : ∀ (ms' : List UpMap) (o' : Option (RVal × Option Nat)),
      m ∈ ms' → (ms'.map (fun x => x.MapID)).Nodup → liveOf now o' = none →
      (ms'.flatMap (mapTriple i)).foldl
        (keyStep now (surveyMapKey (Nat.repr i) (Nat.repr m.MapID))) o'
      = some (.hash (mapRec m), some (now + SURVEY_TTL)) := by
    intro ms'
    induction ms' with
    | nil => intro o' hm' _ _; exact absurd hm' (List.not_mem_nil m)
    | cons m' rest ih =>
      intro o' hm' hnd' ho'
      rw [List.flatMap_cons, keyFold_append]
      have hndrest : (rest.map (fun x => x.MapID)).Nodup :=
        (List.nodup_cons.mp hnd').2
      rcases List.mem_cons.mp hm' with heq | hmem
      · -- the head is our map: its triple writes the record,
        -- the remaining triples never touch this key again
        subst heq
        have hA : keyStep now (surveyMapKey (Nat.repr i) (Nat.repr m.MapID)) o'
            (.hmset (surveyMapKey (Nat.repr i) (Nat.repr m.MapID))
              [("id", Nat.repr m.MapID), ("name", m.MapName),
               ("image_id", Nat.repr m.ImageID)])
            = some (.hash (mapRec m), none) := by
          unfold keyStep
          simp only [RCmd.key]
          rw [if_pos trivial]
          rw [cmdNew_hmset_of_none now _ _ o' ho', updFields_mapRec]
        have hB : keyStep now (surveyMapKey (Nat.repr i) (Nat.repr m.MapID))
            (some (.hash (mapRec m), none))
            (.rpush (surveyMapsKey (Nat.repr i)) (Nat.repr m.MapID))
            = some (.hash (mapRec m), none) := by
          unfold keyStep
          simp only [RCmd.key]
          rw [if_neg hLne]
        have hC : keyStep now (surveyMapKey (Nat.repr i) (Nat.repr m.MapID))
            (some (.hash (mapRec m), none))
            (.expire (surveyMapKey (Nat.repr i) (Nat.repr m.MapID)) SURVEY_TTL)
            = some (.hash (mapRec m), some (now + SURVEY_TTL)) := by
          unfold keyStep
          simp only [RCmd.key]
          rw [if_pos trivial]
          exact cmdNew_expire_of_some now _ _ _ _ _ rfl
        have h1 : (mapTriple i m).foldl
            (keyStep now (surveyMapKey (Nat.repr i) (Nat.repr m.MapID))) o'
            = some (.hash (mapRec m), some (now + SURVEY_TTL)) := by
          unfold mapTriple
          simp only [List.foldl_cons, List.foldl_nil]
          rw [hA, hB, hC]
        rw [h1]
        apply keyFold_frame
        intro c hc
        obtain ⟨m'', hm'', hcin⟩ := List.mem_flatMap.mp hc
        have hid : m''.MapID ≠ m.MapID := by
          intro hh
          have hmm : m.MapID ∈ rest.map (fun x => x.MapID) := by
            rw [← hh]
            exact List.mem_map_of_mem _ hm''
          exact (List.nodup_cons.mp hnd').1 hmm
        rcases mapTriple_keys i m'' c hcin with h2 | h2 <;> rw [h2]
        · exact surveyMapKey_ne_of_mid_ne i m''.MapID m.MapID hid
        · exact hLne
      · -- the head is another map: its triple leaves this key alone
        have hid : m'.MapID ≠ m.MapID := by
          intro hh
          have hmm : m'.MapID ∈ rest.map (fun x => x.MapID) := by
            rw [hh]
            exact List.mem_map_of_mem _ hmem
          exact (List.nodup_cons.mp hnd').1 hmm
        have h0 : (mapTriple i m').foldl
            (keyStep now (surveyMapKey (Nat.repr i) (Nat.repr m.MapID))) o'
            = o' := by
          apply keyFold_frame
          intro c hc
          rcases mapTriple_keys i m' c hc with h2 | h2 <;> rw [h2]
          · exact surveyMapKey_ne_of_mid_ne i m'.MapID m.MapID hid
          · exact hLne
        rw [h0]
        exact ih o' hmem hndrest ho'
  have hfin := hmain ms o hm hnd ho
  rw [hfin]
  simp only [List.foldl_cons, List.foldl_nil]
  unfold keyStep
  simp only [RCmd.key]
  rw [if_neg hLne]

/-! ## Effect of the outer pipeline of `_cache_survey_data` -/

/-- `LPUSH`-accumulation: the per-survey command triples prepend the
survey ids onto the survey list, yielding the reverse of upstream
order. -/
theorem surveyCmds_fold_listKey (now : Nat) :
    ∀ (svs : List UpSurvey) (acc : List String),
      (svs.flatMap surveyCmds).foldl (keyStep now surveysKey)
        (some (.list acc, none))
      = some (.list ((svs.map (fun sv => Nat.repr sv.SurveyID)).reverse
          ++ acc), none) := by
  intro svs
  induction svs with
  | nil => intro acc; simp
  | cons sv rest ih =>
    intro acc
    rw [List.flatMap_cons, keyFold_append]
    have hne : surveyKey (Nat.repr sv.SurveyID) ≠ surveysKey :=
      fun hh => surveysKey_ne_surveyKey (Nat.repr sv.SurveyID) hh.symm
    have h1 : (surveyCmds sv).foldl (keyStep now surveysKey)
        (some (.list acc, none))
        = some (.list (Nat.repr sv.SurveyID :: acc), none) := by
      unfold surveyCmds
      simp only [List.foldl_cons, List.foldl_nil]
      unfold keyStep
      simp only [RCmd.key]
      rw [if_neg hne, if_neg hne, if_pos trivial]
      exact cmdNew_lpush_of_list now _ _ _ acc none rfl
    rw [h1, ih]
    simp

/-- Effect of the whole outer pipeline on the survey list: rebuilt from
scratch to the reverse of the upstream id order, TTL `SURVEY_TTL`;
absent when upstream returned no surveys. -/
theorem outerCmds_listKey (now : Nat) (svs : List UpSurvey)
    (o : Option (RVal × Option Nat)) :
    ((RCmd.del surveysKey :: svs.flatMap surveyCmds
        ++ [RCmd.expire surveysKey SURVEY_TTL]).foldl (keyStep now surveysKey) o)
    = if svs.isEmpty then none
      else some (.list ((svs.map (fun sv => Nat.repr sv.SurveyID)).reverse),
        some (now + SURVEY_TTL)) := by
  rw [List.cons_append, List.foldl_cons]
  have hdel : keyStep now surveysKey o (.del surveysKey) = none := by
    unfold keyStep
    simp only [RCmd.key]
    rw [if_pos trivial]
    rfl
  rw [hdel, keyFold_append]
  cases svs with
  | nil => simp [keyStep, cmdNew, liveOf]
  | cons sv rest =>
    rw [List.flatMap_cons, keyFold_append]
    have hne : surveyKey (Nat.repr sv.SurveyID) ≠ surveysKey :=
      fun hh => surveysKey_ne_surveyKey (Nat.repr sv.SurveyID) hh.symm
    have h1 : (surveyCmds sv).foldl (keyStep now surveysKey) none
        = some (.list [Nat.repr sv.SurveyID], none) := by
      unfold surveyCmds
      simp only [List.foldl_cons, List.foldl_nil]
      unfold keyStep
      simp only [RCmd.key]
      rw [if_neg hne, if_neg hne, if_pos trivial]
      exact cmdNew_lpush_of_none now _ _ _ rfl
    rw [h1, surveyCmds_fold_listKey now rest [Nat.repr sv.SurveyID]]
    simp only [List.foldl_cons, List.foldl_nil]
    unfold keyStep
    simp only [RCmd.key]
    simp [cmdNew, liveOf]

/-- Effect of the whole outer pipeline on one survey's record key. -/
theorem outerCmds_surveyKey (now : Nat) (svs : List UpSurvey) (sv : UpSurvey)
    (hm : sv ∈ svs) (hnd : (svs.map (fun x => x.SurveyID)).Nodup)
    (o : Option (RVal × Option Nat)) (ho : liveOf now o = none) :
    ((RCmd.del surveysKey :: svs.flatMap surveyCmds
        ++ [RCmd.expire surveysKey SURVEY_TTL]).foldl
          (keyStep now (surveyKey (Nat.repr sv.SurveyID))) o)
    = some (.hash (surveyRec sv), some (now + SURVEY_TTL)) := by
  have hLne : surveysKey ≠ surveyKey (Nat.repr sv.SurveyID) :=
    surveysKey_ne_surveyKey (Nat.repr sv.SurveyID)
  rw [List.cons_append, List.foldl_cons]
  have hdel : keyStep now (surveyKey (Nat.repr sv.SurveyID)) o
      (RCmd.del surveysKey) = o := by
    unfold keyStep
    simp only [RCmd.key]
    rw [if_neg hLne]
  rw [hdel, keyFold_append]
  have hmain : ∀ (svs' : List UpSurvey) (o' : Option (RVal × Option Nat)),
      sv ∈ svs' → (svs'.map (fun x => x.SurveyID)).Nodup →
      liveOf now o' = none →
      (svs'.flatMap surveyCmds).foldl
        (keyStep now (surveyKey (Nat.repr sv.SurveyID))) o'
      = some (.hash (surveyRec sv), some (now + SURVEY_TTL)) := by
    intro svs'
    induction svs' with
    | nil => intro o' hm' _ _; exact absurd hm' (List.not_mem_nil sv)
    | cons sv' rest ih =>
      intro o' hm' hnd' ho'
      rw [List.flatMap_cons, keyFold_append]
      have hndrest : (rest.map (fun x => x.SurveyID)).Nodup :=
        (List.nodup_cons.mp hnd').2
      rcases List.mem_cons.mp hm' with heq | hmem
      · subst heq
        have hA : keyStep now (surveyKey (Nat.repr sv.SurveyID)) o'
            (.hmset (surveyKey (Nat.repr sv.SurveyID))
              [("id", Nat.repr sv.SurveyID), ("active", pyStrBool sv.Active),
               ("name", sv.Name), ("start_time", sv.StartTime),
               ("end_time", sv.EndTime)])
            = some (.hash (surveyRec sv), none) := by
          unfold keyStep
          simp only [RCmd.key]
          rw [if_pos trivial]
          rw [cmdNew_hmset_of_none now _ _ o' ho', updFields_surveyRec]
        have hB : keyStep now (surveyKey (Nat.repr sv.SurveyID))
            (some (.hash (surveyRec sv), none))
            (.expire (surveyKey (Nat.repr sv.SurveyID)) SURVEY_TTL)
            = some (.hash (surveyRec sv), some (now + SURVEY_TTL)) := by
          unfold keyStep
          simp only [RCmd.key]
          rw [if_pos trivial]
          exact cmdNew_expire_of_some now _ _ _ _ _ rfl
        have hC : keyStep now (surveyKey (Nat.repr sv.SurveyID))
            (some (.hash (surveyRec sv), some (now + SURVEY_TTL)))
            (.lpush surveysKey (Nat.repr sv.SurveyID))
            = some (.hash (surveyRec sv), some (now + SURVEY_TTL)) := by
          unfold keyStep
          simp only [RCmd.key]
          rw [if_neg hLne]
        have h1 : (surveyCmds sv).foldl
            (keyStep now (surveyKey (Nat.repr sv.SurveyID))) o'
            = some (.hash (surveyRec sv), some (now + SURVEY_TTL)) := by
          unfold surveyCmds
          simp only [List.foldl_cons, List.foldl_nil]
          rw [hA, hB, hC]
        rw [h1]
        apply keyFold_frame
        intro c hc
        obtain ⟨sv'', hsv'', hcin⟩ := List.mem_flatMap.mp hc
        have hid : sv''.SurveyID ≠ sv.SurveyID := by
          intro hh
          have hmm : sv.SurveyID ∈ rest.map (fun x => x.SurveyID) := by
            rw [← hh]
            exact List.mem_map_of_mem _ hsv''
          exact (List.nodup_cons.mp hnd').1 hmm
        rcases surveyCmds_keys sv'' c hcin with h2 | h2 <;> rw [h2]
        · exact surveyKey_ne_of_ne sv''.SurveyID sv.SurveyID hid
        · exact hLne
      · have hid : sv'.SurveyID ≠ sv.SurveyID := by
          intro hh
          have hmm : sv'.SurveyID ∈ rest.map (fun x => x.SurveyID) := by
            rw [hh]
            exact List.mem_map_of_mem _ hmem
          exact (List.nodup_cons.mp hnd').1 hmm
        have h0 : (surveyCmds sv').foldl
            (keyStep now (surveyKey (Nat.repr sv.SurveyID))) o' = o' := by
          apply keyFold_frame
          intro c hc
          rcases surveyCmds_keys sv' c hc with h2 | h2 <;> rw [h2]
          · exact surveyKey_ne_of_ne sv'.SurveyID sv.SurveyID hid
          · exact hLne
        rw [h0]
        exact ih o' hmem hndrest ho'
  rw [hmain svs o hm hnd ho]
  simp only [List.foldl_cons, List.foldl_nil]
  unfold keyStep
  simp only [RCmd.key]
  rw [if_neg hLne]

/-! ## Effect of all the inner (per-survey map) pipelines together -/

/-- The inner pipelines never touch the survey list key. -/
theorem innerCmds_frame_surveysKey (up : Upstream) (now : Nat)
    (svs : List UpSurvey) (o : Option (RVal × Option Nat)) :
    (svs.flatMap (fun sv =>
        mapsForSurveyCmds sv.SurveyID (up.mapsFor sv.SurveyID))).foldl
      (keyStep now surveysKey) o = o := by
  apply keyFold_frame
  intro c hc
  obtain ⟨sv, _, hcin⟩ := List.mem_flatMap.mp hc
  rcases mapsForSurveyCmds_keys sv.SurveyID (up.mapsFor sv.SurveyID) c hcin
    with h2 | ⟨m, _, h2⟩ <;> rw [h2]
  · exact fun hh => surveysKey_ne_surveyMapsKey (Nat.repr sv.SurveyID) hh.symm
  · exact fun hh => surveysKey_ne_surveyMapKey (Nat.repr sv.SurveyID)
      (Nat.repr m.MapID) hh.symm

/-- The inner pipelines never touch any survey record key. -/
theorem innerCmds_frame_surveyKey (up : Upstream) (now : Nat)
    (svs : List UpSurvey) (a : Nat) (o : Option (RVal × Option Nat)) :
    (svs.flatMap (fun sv =>
        mapsForSurveyCmds sv.SurveyID (up.mapsFor sv.SurveyID))).foldl
      (keyStep now (surveyKey (Nat.repr a))) o = o := by
  apply keyFold_frame
  intro c hc
  obtain ⟨sv, _, hcin⟩ := List.mem_flatMap.mp hc
  rcases mapsForSurveyCmds_keys sv.SurveyID (up.mapsFor sv.SurveyID) c hcin
    with h2 | ⟨m, _, h2⟩ <;> rw [h2]
  · exact fun hh => surveyKey_ne_surveyMapsKey a (Nat.repr sv.SurveyID) hh.symm
  · exact fun hh => surveyKey_ne_surveyMapKey a (Nat.repr sv.SurveyID)
      (Nat.repr m.MapID) hh.symm

/-- Across all inner pipelines, a survey's map list ends up rebuilt to
exactly its own upstream map ids. -/
theorem innerCmds_listKey (up : Upstream) (now : Nat)
    (svs : List UpSurvey) (sv : UpSurvey) (hm : sv ∈ svs)
    (hnd : (svs.map (fun x => x.SurveyID)).Nodup)
    (o : Option (RVal × Option Nat)) :
    (svs.flatMap (fun sv' =>
        mapsForSurveyCmds sv'.SurveyID (up.mapsFor sv'.SurveyID))).foldl
      (keyStep now (surveyMapsKey (Nat.repr sv.SurveyID))) o
    = if (up.mapsFor sv.SurveyID).isEmpty then none
      else some (.list ((up.mapsFor sv.SurveyID).map
          (fun m => Nat.repr m.MapID)), some (now + SURVEY_TTL)) := by
  induction svs generalizing o with
  | nil => exact absurd hm (List.not_mem_nil sv)
  | cons sv' rest ih =>
    rw [List.flatMap_cons, keyFold_append]
    have hndrest : (rest.map (fun x => x.SurveyID)).Nodup :=
      (List.nodup_cons.mp hnd).2
    rcases List.mem_cons.mp hm with heq | hmem
    · subst heq
      rw [mapsBatch_listKey]
      apply keyFold_frame
      intro c hc
      obtain ⟨sv'', hsv'', hcin⟩ := List.mem_flatMap.mp hc
      have hid : sv''.SurveyID ≠ sv.SurveyID := by
        intro hh
        have hmm : sv.SurveyID ∈ rest.map (fun x => x.SurveyID) := by
          rw [← hh]
          exact List.mem_map_of_mem _ hsv''
        exact (List.nodup_cons.mp hnd).1 hmm
      rcases mapsForSurveyCmds_keys sv''.SurveyID (up.mapsFor sv''.SurveyID)
          c hcin with h2 | ⟨m, _, h2⟩ <;> rw [h2]
      · exact surveyMapsKey_ne_of_ne sv''.SurveyID sv.SurveyID hid
      · exact fun hh => surveyMapsKey_ne_surveyMapKey sv.SurveyID
          (Nat.repr sv''.SurveyID) (Nat.repr m.MapID)
          (natRepr_colon_free sv''.SurveyID) hh.symm
    · have hid : sv'.SurveyID ≠ sv.SurveyID := by
        intro hh
        have hmm : sv'.SurveyID ∈ rest.map (fun x => x.SurveyID) := by
          rw [hh]
          exact List.mem_map_of_mem _ hmem
        exact (List.nodup_cons.mp hnd).1 hmm
      have h0 : (mapsForSurveyCmds sv'.SurveyID (up.mapsFor sv'.SurveyID)).foldl
          (keyStep now (surveyMapsKey (Nat.repr sv.SurveyID))) o = o := by
        apply keyFold_frame
        intro c hc
        rcases mapsForSurveyCmds_keys sv'.SurveyID (up.mapsFor sv'.SurveyID)
            c hc with h2 | ⟨m, _, h2⟩ <;> rw [h2]
        · exact surveyMapsKey_ne_of_ne sv'.SurveyID sv.SurveyID hid
        · exact fun hh => surveyMapsKey_ne_surveyMapKey sv.SurveyID
            (Nat.repr sv'.SurveyID) (Nat.repr m.MapID)
            (natRepr_colon_free sv'.SurveyID) hh.symm
      rw [h0]
      exact ih hmem hndrest o

/-- Across all inner pipelines, each map record of each survey is
created fresh with TTL `SURVEY_TTL`. -/
theorem innerCmds_mapKey (up : Upstream) (now : Nat)
    (svs : List UpSurvey) (sv : UpSurvey) (m : UpMap)
    (hm : sv ∈ svs) (hmm : m ∈ up.mapsFor sv.SurveyID)
    (hnd : (svs.map (fun x => x.SurveyID)).Nodup)
    (hndm : ((up.mapsFor sv.SurveyID).map (fun x => x.MapID)).Nodup)
    (o : Option (RVal × Option Nat)) (ho : liveOf now o = none) :
    (svs.flatMap (fun sv' =>
        mapsForSurveyCmds sv'.SurveyID (up.mapsFor sv'.SurveyID))).foldl
      (keyStep now (surveyMapKey (Nat.repr sv.SurveyID) (Nat.repr m.MapID))) o
    = some (.hash (mapRec m), some (now + SURVEY_TTL)) := by
  induction svs generalizing o with
  | nil => exact absurd hm (List.not_mem_nil sv)
  | cons sv' rest ih =>
    rw [List.flatMap_cons, keyFold_append]
    have hndrest : (rest.map (fun x => x.SurveyID)).Nodup :=
      (List.nodup_cons.mp hnd).2
    rcases List.mem_cons.mp hm with heq | hmem
    · subst heq
      rw [mapsBatch_mapKey now sv.SurveyID (up.mapsFor sv.SurveyID) m hmm
        hndm o ho]
      apply keyFold_frame
      intro c hc
      obtain ⟨sv'', hsv'', hcin⟩ := List.mem_flatMap.mp hc
      have hid : sv''.SurveyID ≠ sv.SurveyID := by
        intro hh
        have hmem2 : sv.SurveyID ∈ rest.map (fun x => x.SurveyID) := by
          rw [← hh]
          exact List.mem_map_of_mem _ hsv''
        exact (List.nodup_cons.mp hnd).1 hmem2
      rcases mapsForSurveyCmds_keys sv''.SurveyID (up.mapsFor sv''.SurveyID)
          c hcin with h2 | ⟨m', _, h2⟩ <;> rw [h2]
      · exact surveyMapsKey_ne_surveyMapKey sv''.SurveyID
          (Nat.repr sv.SurveyID) (Nat.repr m.MapID)
          (natRepr_colon_free sv.SurveyID)
      · exact surveyMapKey_ne_of_sid_ne sv''.SurveyID sv.SurveyID
          (Nat.repr m'.MapID) (Nat.repr m.MapID)
          (natRepr_colon_free m'.MapID) (natRepr_colon_free m.MapID) hid
    · have hid : sv'.SurveyID ≠ sv.SurveyID := by
        intro hh
        have hmem2 : sv'.SurveyID ∈ rest.map (fun x => x.SurveyID) := by
          rw [hh]
          exact List.mem_map_of_mem _ hmem
        exact (List.nodup_cons.mp hnd).1 hmem2
      have h0 : (mapsForSurveyCmds sv'.SurveyID (up.mapsFor sv'.SurveyID)).foldl
          (keyStep now (surveyMapKey (Nat.repr sv.SurveyID)
            (Nat.repr m.MapID))) o = o := by
        apply keyFold_frame
        intro c hc
        rcases mapsForSurveyCmds_keys sv'.SurveyID (up.mapsFor sv'.SurveyID)
            c hc with h2 | ⟨m', _, h2⟩ <;> rw [h2]
        · exact surveyMapsKey_ne_surveyMapKey sv'.SurveyID
            (Nat.repr sv.SurveyID) (Nat.repr m.MapID)
            (natRepr_colon_free sv.SurveyID)
        · exact surveyMapKey_ne_of_sid_ne sv'.SurveyID sv.SurveyID
            (Nat.repr m'.MapID) (Nat.repr m.MapID)
            (natRepr_colon_free m'.MapID) (natRepr_colon_free m.MapID) hid
      rw [h0]
      exact ih hmem hndrest o ho

/-! ## The store produced by `_cache_survey_data` from scratch -/

/-- All Redis writes of one `_cache_survey_data` run, in commit order:
each survey's map pipeline executes during the loop, the outer pipeline
commits at the end. -/
def cacheStore (up : Upstream) (now : Nat) : Store :=
  applyCmds now
    (applyCmds now []
      (up.surveys.flatMap (fun sv =>
        mapsForSurveyCmds sv.SurveyID (up.mapsFor sv.SurveyID))))
    (RCmd.del surveysKey :: up.surveys.flatMap surveyCmds
      ++ [RCmd.expire surveysKey SURVEY_TTL])

/-- The outer pipeline leaves map-family keys alone. -/
theorem outerCmds_frame_mapFamily (now : Nat) (svs : List UpSurvey)
    (k : String)
    (hk1 : ∀ a : Nat, surveyKey (Nat.repr a) ≠ k)
    (hk2 : surveysKey ≠ k) (o : Option (RVal × Option Nat)) :
    ((RCmd.del surveysKey :: svs.flatMap surveyCmds
        ++ [RCmd.expire surveysKey SURVEY_TTL]).foldl (keyStep now k) o) = o := by
  apply keyFold_frame
  intro c hc
  rcases List.mem_cons.mp hc with hc | hc
  · rw [hc]; exact hk2
  rcases List.mem_append.mp hc with hc | hc
  · obtain ⟨sv, _, hcin⟩ := List.mem_flatMap.mp hc
    rcases surveyCmds_keys sv c hcin with h2 | h2 <;> rw [h2]
    · exact hk1 sv.SurveyID
    · exact hk2
  · simp only [List.mem_singleton] at hc
    rw [hc]; exact hk2

theorem cacheStore_surveysKey (up : Upstream) (now : Nat) :
    lookupD (cacheStore up now) surveysKey
    = if up.surveys.isEmpty then none
      else some (.list ((up.surveys.map (fun sv => Nat.repr sv.SurveyID)).reverse),
        some (now + SURVEY_TTL)) := by
  unfold cacheStore
  rw [lookupD_applyCmds_fold, lookupD_applyCmds_fold]
  rw [show lookupD ([] : Store) surveysKey = none from rfl]
  rw [innerCmds_frame_surveysKey up now up.surveys none]
  exact outerCmds_listKey now up.surveys none

theorem cacheStore_surveyKey (up : Upstream) (now : Nat) (sv : UpSurvey)
    (hm : sv ∈ up.surveys)
    (hnd : (up.surveys.map (fun x => x.SurveyID)).Nodup) :
    lookupD (cacheStore up now) (surveyKey (Nat.repr sv.SurveyID))
    = some (.hash (surveyRec sv), some (now + SURVEY_TTL)) := by
  unfold cacheStore
  rw [lookupD_applyCmds_fold, lookupD_applyCmds_fold]
  rw [show lookupD ([] : Store) (surveyKey (Nat.repr sv.SurveyID)) = none
    from rfl]
  rw [innerCmds_frame_surveyKey up now up.surveys sv.SurveyID none]
  exact outerCmds_surveyKey now up.surveys sv hm hnd none rfl

theorem cacheStore_surveyMapsKey (up : Upstream) (now : Nat) (sv : UpSurvey)
    (hm : sv ∈ up.surveys)
    (hnd : (up.surveys.map (fun x => x.SurveyID)).Nodup) :
    lookupD (cacheStore up now) (surveyMapsKey (Nat.repr sv.SurveyID))
    = if (up.mapsFor sv.SurveyID).isEmpty then none
      else some (.list ((up.mapsFor sv.SurveyID).map
          (fun m => Nat.repr m.MapID)), some (now + SURVEY_TTL)) := by
  unfold cacheStore
  rw [lookupD_applyCmds_fold, lookupD_applyCmds_fold]
  rw [outerCmds_frame_mapFamily now up.surveys
    (surveyMapsKey (Nat.repr sv.SurveyID))
    (fun a => surveyKey_ne_surveyMapsKey a (Nat.repr sv.SurveyID))
    (surveysKey_ne_surveyMapsKey (Nat.repr sv.SurveyID))]
  rw [show lookupD ([] : Store) (surveyMapsKey (Nat.repr sv.SurveyID)) = none
    from rfl]
  exact innerCmds_listKey up now up.surveys sv hm hnd none

theorem cacheStore_surveyMapKey (up : Upstream) (now : Nat) (sv : UpSurvey)
    (m : UpMap) (hm : sv ∈ up.surveys) (hmm : m ∈ up.mapsFor sv.SurveyID)
    (hnd : (up.surveys.map (fun x => x.SurveyID)).Nodup)
    (hndm : ((up.mapsFor sv.SurveyID).map (fun x => x.MapID)).Nodup) :
    lookupD (cacheStore up now)
      (surveyMapKey (Nat.repr sv.SurveyID) (Nat.repr m.MapID))
    = some (.hash (mapRec m), some (now + SURVEY_TTL)) := by
  unfold cacheStore
  rw [lookupD_applyCmds_fold, lookupD_applyCmds_fold]
  rw [outerCmds_frame_mapFamily now up.surveys
    (surveyMapKey (Nat.repr sv.SurveyID) (Nat.repr m.MapID))
    (fun a => surveyKey_ne_surveyMapKey a (Nat.repr sv.SurveyID)
      (Nat.repr m.MapID))
    (surveysKey_ne_surveyMapKey (Nat.repr sv.SurveyID) (Nat.repr m.MapID))]
  rw [show lookupD ([] : Store)
      (surveyMapKey (Nat.repr sv.SurveyID) (Nat.repr m.MapID)) = none
    from rfl]
  exact innerCmds_mapKey up now up.surveys sv m hm hmm hnd hndm none rfl

/-! ## State-level behaviour of the populator functions -/

/-- Credential-state well-formedness: either no token is cached, or an
expiry is present (a fresh instance, and every state `get_token`
produces, satisfies it; it rules out the dead `TypeError` branch of
`token_valid`). -/
def TokOk (s : ApiState) : Prop :=
  s.access_token = none ∨ s.access_token_expiry ≠ none

theorem countCall_append (c : UpCall) (a b : List UpCall) :
    countCall c (a ++ b) = countCall c a + countCall c b := by
  induction a with
  | nil => simp [countCall]
  | cons x xs ih =>
    show (if x = c then 1 else 0) + countCall c (xs ++ b)
      = (if x = c then 1 else 0) + countCall c xs + countCall c b
    rw [ih]
    omega

theorem token_valid_of_TokOk (s : ApiState) (h : TokOk s) :
    token_valid s = .ok true ∨ token_valid s = .ok false := by
  unfold token_valid
  rcases ht : s.access_token with _ | tok
  · exact Or.inr rfl
  · show (if tok = "" then Except.ok false
      else match s.access_token_expiry with
        | none => Except.error PyErr.typeError
        | some expiry =>
          if s.now > expiry then Except.ok false else Except.ok true)
      = Except.ok true ∨
      (if tok = "" then Except.ok false
      else match s.access_token_expiry with
        | none => Except.error PyErr.typeError
        | some expiry =>
          if s.now > expiry then Except.ok false else Except.ok true)
      = Except.ok false
    by_cases he : tok = ""
    · rw [if_pos he]; exact Or.inr rfl
    · rw [if_neg he]
      rcases hx : s.access_token_expiry with _ | exp
      · exfalso
        rcases h with h1 | h2
        · rw [ht] at h1; exact Option.noConfusion h1
        · exact h2 hx
      · show (if s.now > exp then Except.ok false else Except.ok true)
            = Except.ok true ∨
          (if s.now > exp then Except.ok false else Except.ok true)
            = Except.ok false
        by_cases hgt : s.now > exp
        · rw [if_pos hgt]; exact Or.inr rfl
        · rw [if_neg hgt]; exact Or.inl rfl

theorem token_valid_true_token (s : ApiState)
    (h : token_valid s = .ok true) : ∃ tok, s.access_token = some tok := by
  unfold token_valid at h
  rcases ht : s.access_token with _ | tok <;> rw [ht] at h
  · simp at h
  · exact ⟨tok, rfl⟩

/-- What one `get_bearer_token` call does to the state: under `TokOk` it
succeeds, keeps the clock, touches only the two token keys of the
store, and appends at most a token exchange to the trace. -/
theorem bearer_state (up : Upstream) (s : ApiState) (h : TokOk s) :
    ∃ b s', get_bearer_token up s = (.ok b, s') ∧ s'.now = s.now ∧
      TokOk s' ∧
      (∀ k, k ≠ tokenKey → k ≠ tokenExpiryKey →
        lookupD s'.store k = lookupD s.store k) ∧
      (s'.trace = s.trace ∨ s'.trace = s.trace ++ [.tokenFetch]) := by
  rcases token_valid_of_TokOk s h with hv | hv
  · obtain ⟨tok, ht⟩ := token_valid_true_token s hv
    refine ⟨"Bearer " ++ tok, s, ?_, rfl, h, fun k _ _ => rfl, Or.inl rfl⟩
    unfold get_bearer_token
    rw [hv]
    show bearer_return s = _
    unfold bearer_return
    rw [ht]
    rfl
  · refine ⟨"Bearer " ++ up.tokenResp.access_token, get_token up s, ?_,
      rfl, ?_, ?_, Or.inr rfl⟩
    · unfold get_bearer_token
      rw [hv]
      show bearer_return (get_token up s) = _
      unfold bearer_return
      rw [show (get_token up s).access_token
        = some up.tokenResp.access_token from rfl]
      rfl
    · right
      show some (s.now + up.tokenResp.expires_in) ≠ none
      exact Option.noConfusion
    · intro k hk1 hk2
      show lookupD (applyCmds s.now s.store
        [.set tokenKey up.tokenResp.access_token,
         .set tokenExpiryKey
           (Nat.repr (s.now + up.tokenResp.expires_in))]) k
        = lookupD s.store k
      apply lookupD_applyCmds_ne
      intro c hc
      simp only [List.mem_cons, List.not_mem_nil, or_false] at hc
      rcases hc with h1 | h1 <;> rw [h1]
      · exact fun hh => hk1 hh.symm
      · exact fun hh => hk2 hh.symm

theorem countCall_eq_zero_of_not_mem (c : UpCall) (tr : List UpCall)
    (h : c ∉ tr) : countCall c tr = 0 := by
  induction tr with
  | nil => rfl
  | cons x xs ih =>
    show (if x = c then 1 else 0) + countCall c xs = 0
    rw [if_neg (fun hh => h (show c ∈ x :: xs by
        rw [hh]; exact List.mem_cons_self c xs)),
      ih (fun hh => h (List.mem_cons_of_mem _ hh))]

/-- What one `_cache_maps_for_survey` call does to the state. -/
theorem cache_maps_state (up : Upstream) (i : Nat) (s : ApiState)
    (h : TokOk s) :
    ∃ s', cache_maps_for_survey up i s = (.ok (), s') ∧ s'.now = s.now ∧
      TokOk s' ∧
      (∀ k, k ≠ tokenKey → k ≠ tokenExpiryKey →
        lookupD s'.store k
          = lookupD (applyCmds s.now s.store
              (mapsForSurveyCmds i (up.mapsFor i))) k) ∧
      ∃ tr', s'.trace = s.trace ++ tr' ∧ UpCall.surveysFetch ∉ tr' ∧
        UpCall.mapsFetch i ∈ tr' := by
  obtain ⟨b, s₂, hb, hnow, htok, hframe, htrace⟩ := bearer_state up s h
  refine ⟨{ addTrace (.mapsFetch i) s₂ with
      store := applyCmds (addTrace (.mapsFetch i) s₂).now
        (addTrace (.mapsFetch i) s₂).store
        (mapsForSurveyCmds i (up.mapsFor i)) }, ?_, ?_, ?_, ?_, ?_⟩
  · unfold cache_maps_for_survey
    rw [hb]
    rfl
  · exact hnow
  · exact htok
  · intro k hk1 hk2
    show lookupD (applyCmds s₂.now s₂.store
      (mapsForSurveyCmds i (up.mapsFor i))) k = _
    rw [hnow]
    exact lookupD_applyCmds_pointwise s.now s₂.store s.store _ k
      (hframe k hk1 hk2)
  · rcases htrace with h1 | h1
    · refine ⟨[.mapsFetch i], ?_, ?_, List.mem_singleton.mpr rfl⟩
      · show s₂.trace ++ [.mapsFetch i] = s.trace ++ [.mapsFetch i]
        rw [h1]
      · intro hc
        simp at hc
    · refine ⟨[.tokenFetch, .mapsFetch i], ?_, ?_, ?_⟩
      · show s₂.trace ++ [.mapsFetch i] = s.trace ++ [.tokenFetch, .mapsFetch i]
        rw [h1, List.append_assoc]
        rfl
      · intro hc
        simp at hc
      · simp

/-- What the per-survey loop of `_cache_survey_data` does: it returns
the buffered outer commands and has committed exactly the inner map
pipelines, in order. -/
theorem loop_state (up : Upstream) :
    ∀ (svs : List UpSurvey) (s : ApiState), TokOk s →
    ∃ s', cache_survey_loop up svs s = (.ok (svs.flatMap surveyCmds), s') ∧
      s'.now = s.now ∧ TokOk s' ∧
      (∀ k, k ≠ tokenKey → k ≠ tokenExpiryKey →
        lookupD s'.store k = lookupD (applyCmds s.now s.store
          (svs.flatMap (fun sv =>
            mapsForSurveyCmds sv.SurveyID (up.mapsFor sv.SurveyID)))) k) ∧
      ∃ tr', s'.trace = s.trace ++ tr' ∧ UpCall.surveysFetch ∉ tr' ∧
        ∀ sv ∈ svs, UpCall.mapsFetch sv.SurveyID ∈ tr' := by
  intro svs
  induction svs with
  | nil =>
    intro s h
    exact ⟨s, rfl, rfl, h, fun k _ _ => rfl,
      ⟨[], by simp, by simp, by simp⟩⟩
  | cons sv rest ih =>
    intro s h
    obtain ⟨s₁, hm, hnow1, htok1, hframe1, tr₁, htr1, hns1, hmf1⟩ :=
      cache_maps_state up sv.SurveyID s h
    obtain ⟨s₂, hl, hnow2, htok2, hframe2, tr₂, htr2, hns2, hmf2⟩ :=
      ih s₁ htok1
    refine ⟨s₂, ?_, ?_, htok2, ?_, ?_⟩
    · unfold cache_survey_loop
      rw [hm]
      show (match cache_survey_loop up rest s₁ with
        | (.error e, s') => raise e s'
        | (.ok cmds, s2') => ok (surveyCmds sv ++ cmds) s2') = _
      rw [hl]
      rfl
    · rw [hnow2, hnow1]
    · intro k hk1 hk2
      rw [hframe2 k hk1 hk2, hnow1]
      have hlift := lookupD_applyCmds_pointwise s.now s₁.store
        (applyCmds s.now s.store (mapsForSurveyCmds sv.SurveyID
          (up.mapsFor sv.SurveyID)))
        (rest.flatMap (fun sv' =>
          mapsForSurveyCmds sv'.SurveyID (up.mapsFor sv'.SurveyID))) k
        (by rw [hframe1 k hk1 hk2])
      rw [hlift, ← applyCmds_append, List.flatMap_cons]
    · refine ⟨tr₁ ++ tr₂, ?_, ?_, ?_⟩
      · rw [htr2, htr1, List.append_assoc]
      · intro hc
        rcases List.mem_append.mp hc with hc | hc
        · exact hns1 hc
        · exact hns2 hc
      · intro sv' hsv'
        rcases List.mem_cons.mp hsv' with heq | hmem
        · subst heq
          exact List.mem_append_left _ hmf1
        · exact List.mem_append_right _ (hmf2 sv' hmem)

/-- What one `_cache_survey_data` call does to the state: it commits
first every survey's map pipeline and then the outer pipeline, performs
exactly one surveys fetch, and fetches the maps of every survey. -/
theorem cache_survey_data_state (up : Upstream) (s : ApiState) (h : TokOk s) :
    ∃ s', cache_survey_data up s = (.ok (), s') ∧ s'.now = s.now ∧
      TokOk s' ∧
      (∀ k, k ≠ tokenKey → k ≠ tokenExpiryKey →
        lookupD s'.store k = lookupD (applyCmds s.now
          (applyCmds s.now s.store
            (up.surveys.flatMap (fun sv =>
              mapsForSurveyCmds sv.SurveyID (up.mapsFor sv.SurveyID))))
          (RCmd.del surveysKey :: up.surveys.flatMap surveyCmds
            ++ [RCmd.expire surveysKey SURVEY_TTL])) k) ∧
      ∃ tr', s'.trace = s.trace ++ tr' ∧
        countCall UpCall.surveysFetch tr' = 1 ∧
        ∀ sv ∈ up.surveys, UpCall.mapsFetch sv.SurveyID ∈ tr' := by
  obtain ⟨b, s₁, hb, hnow1, htok1, hframe1, htrace1⟩ := bearer_state up s h
  have htok1' : TokOk (addTrace .surveysFetch s₁) := htok1
  obtain ⟨s₂, hl, hnow2, htok2, hframe2, tr₂, htr2, hns2, hmf2⟩ :=
    loop_state up up.surveys (addTrace .surveysFetch s₁) htok1'
  refine ⟨{ s₂ with
      store := applyCmds s₂.now s₂.store
        (RCmd.del surveysKey :: up.surveys.flatMap surveyCmds
          ++ [RCmd.expire surveysKey SURVEY_TTL]) }, ?_, ?_, htok2, ?_, ?_⟩
  · unfold cache_survey_data
    rw [hb]
    show (match cache_survey_loop up up.surveys (addTrace .surveysFetch s₁) with
      | (.error e, s') => raise e s'
      | (.ok cmds, s3) =>
        ok () { s3 with
          store := applyCmds s3.now s3.store
            (RCmd.del surveysKey :: cmds
              ++ [RCmd.expire surveysKey SURVEY_TTL]) }) = _
    rw [hl]
    rfl
  · show s₂.now = s.now
    rw [hnow2]
    exact hnow1
  · intro k hk1 hk2
    show lookupD (applyCmds s₂.now s₂.store _) k = _
    have hnow : s₂.now = s.now := by rw [hnow2]; exact hnow1
    rw [hnow]
    apply lookupD_applyCmds_pointwise
    rw [hframe2 k hk1 hk2]
    show lookupD (applyCmds (addTrace .surveysFetch s₁).now s₁.store _) k = _
    rw [show (addTrace .surveysFetch s₁).now = s.now from hnow1]
    exact lookupD_applyCmds_pointwise s.now s₁.store s.store _ k
      (hframe1 k hk1 hk2)
  · rcases htrace1 with h1 | h1
    · refine ⟨.surveysFetch :: tr₂, ?_, ?_, ?_⟩
      · show s₂.trace = _
        rw [htr2]
        show s₁.trace ++ [.surveysFetch] ++ tr₂ = _
        rw [h1, List.append_assoc]
        rfl
      · show countCall _ (.surveysFetch :: tr₂) = 1
        show (if UpCall.surveysFetch = UpCall.surveysFetch then 1 else 0)
          + countCall UpCall.surveysFetch tr₂ = 1
        rw [if_pos rfl, countCall_eq_zero_of_not_mem _ _ hns2]
      · intro sv hsv
        exact List.mem_cons_of_mem _ (hmf2 sv hsv)
    · refine ⟨.tokenFetch :: .surveysFetch :: tr₂, ?_, ?_, ?_⟩
      · show s₂.trace = _
        rw [htr2]
        show s₁.trace ++ [.surveysFetch] ++ tr₂ = _
        rw [h1, List.append_assoc, List.append_assoc]
        rfl
      · show (if UpCall.tokenFetch = UpCall.surveysFetch then 1 else 0)
          + ((if UpCall.surveysFetch = UpCall.surveysFetch then 1 else 0)
            + countCall UpCall.surveysFetch tr₂) = 1
        rw [if_neg (by simp), if_pos rfl,
          countCall_eq_zero_of_not_mem _ _ hns2]
      · intro sv hsv
        exact List.mem_cons_of_mem _ (List.mem_cons_of_mem _ (hmf2 sv hsv))

/-! ## Reading the populated cache back out -/

theorem liveVal_of_ttl (st : Store) (now : Nat) (k : String)
    (v : RVal) (ttl : Nat)
    (h : lookupD st k = some (v, some (now + ttl))) (ht : 0 < ttl) :
    liveVal st now k = some (v, some (now + ttl)) := by
  unfold liveVal liveOf
  rw [h]
  show (if now < now + ttl then some (v, some (now + ttl)) else none) = _
  rw [if_pos (by omega)]

theorem liveVal_of_lookupD_none (st : Store) (now : Nat) (k : String)
    (h : lookupD st k = none) : liveVal st now k = none := by
  unfold liveVal liveOf
  rw [h]

theorem llen_of_liveVal_list (st : Store) (now : Nat) (k : String)
    (xs : List String) (d : Option Nat)
    (h : liveVal st now k = some (.list xs, d)) : llen st now k = xs.length := by
  unfold llen
  rw [h]

theorem llen_of_liveVal_none (st : Store) (now : Nat) (k : String)
    (h : liveVal st now k = none) : llen st now k = 0 := by
  unfold llen
  rw [h]

theorem lrange_of_liveVal_none (st : Store) (now : Nat) (k : String)
    (stop : Int) (h : liveVal st now k = none) : lrange st now k stop = [] := by
  unfold lrange
  rw [h]

/-- `lrange(k, 0, llen(k) - 1)` returns the whole list (also when it is
empty, where the stop index is `-1`). -/
theorem lrange_all_sub1 (st : Store) (now : Nat) (k : String)
    (xs : List String) (d : Option Nat)
    (h : liveVal st now k = some (.list xs, d)) :
    lrange st now k ((xs.length : Int) - 1) = xs := by
  unfold lrange
  rw [h]
  have hcalc : ((if ((xs.length : Int) - 1) < 0
      then (xs.length : Int) + ((xs.length : Int) - 1)
      else (xs.length : Int) - 1) + 1).toNat = xs.length := by
    by_cases hx : ((xs.length : Int) - 1) < 0
    · rw [if_pos hx]; omega
    · rw [if_neg hx]; omega
  show List.take ((if ((xs.length : Int) - 1) < 0
      then (xs.length : Int) + ((xs.length : Int) - 1)
      else (xs.length : Int) - 1) + 1).toNat xs = xs
  rw [hcalc, List.take_length]

/-- `lrange(k, 0, llen(k))` (no `- 1`) also returns the whole list. -/
theorem lrange_all_len (st : Store) (now : Nat) (k : String)
    (xs : List String) (d : Option Nat)
    (h : liveVal st now k = some (.list xs, d)) :
    lrange st now k (xs.length : Int) = xs := by
  unfold lrange
  rw [h]
  have hcalc : ((if ((xs.length : Int)) < 0
      then (xs.length : Int) + (xs.length : Int)
      else (xs.length : Int)) + 1).toNat = xs.length + 1 := by
    rw [if_neg (by omega)]
    omega
  show List.take ((if ((xs.length : Int)) < 0
      then (xs.length : Int) + (xs.length : Int)
      else (xs.length : Int)) + 1).toNat xs = xs
  rw [hcalc]
  exact List.take_of_length_le (by omega)

theorem hgetall_of_liveVal_hash (st : Store) (now : Nat) (k : String)
    (fs : List (String × String)) (d : Option Nat)
    (h : liveVal st now k = some (.hash fs, d)) : hgetall st now k = fs := by
  unfold hgetall
  rw [h]

theorem pyInt_repr (n : Nat) : pyInt (Nat.repr n) = .ok n := by
  unfold pyInt
  rw [natRepr_toNat]

/-- The write-then-read round trip of a boolean field: `redis.py` stores
`str(True) = "True"`, `_str2bool` parses it back. -/
theorem str2bool_pyStrBool (b : Bool) : str2bool (pyStrBool b) = b := by
  cases b <;> decide

/-- The survey as `get_surveys` serialises it, straight from upstream
data. -/
def surveyOutOf (up : Upstream) (sv : UpSurvey) : SurveyOut :=
  { id := sv.SurveyID, name := sv.Name, active := sv.Active,
    start_time := sv.StartTime, end_time := sv.EndTime,
    maps := (up.mapsFor sv.SurveyID).map (fun m => (m.MapID, m.MapName, m.ImageID)) }

theorem readSurveyMap_ok (st : Store) (now : Nat) (sid : String) (m : UpMap)
    (d : Option Nat)
    (h : liveVal st now (surveyMapKey sid (Nat.repr m.MapID))
      = some (.hash (mapRec m), d)) :
    readSurveyMap st now sid (Nat.repr m.MapID)
      = .ok (m.MapID, m.MapName, m.ImageID) := by
  have hget := hgetall_of_liveVal_hash st now _ _ _ h
  simp [readSurveyMap, hget, dGet, mapRec, lookupD, pyInt_repr]

theorem readSurveyMapsLoop_ok (st : Store) (now : Nat) (sid : String) :
    ∀ ms : List UpMap,
    (∀ m ∈ ms, readSurveyMap st now sid (Nat.repr m.MapID)
      = .ok (m.MapID, m.MapName, m.ImageID)) →
    readSurveyMapsLoop st now sid (ms.map (fun m => Nat.repr m.MapID))
      = .ok (ms.map (fun m => (m.MapID, m.MapName, m.ImageID))) := by
  intro ms
  induction ms with
  | nil => intro _; rfl
  | cons m rest ih =>
    intro h
    show (match readSurveyMap st now sid (Nat.repr m.MapID) with
      | Except.error e => Except.error e
      | Except.ok x =>
        match readSurveyMapsLoop st now sid
            (rest.map (fun (m : UpMap) => Nat.repr m.MapID)) with
        | Except.error e => Except.error e
        | Except.ok ms' => Except.ok (x :: ms')) = _
    rw [h m (List.mem_cons_self ..), ih (fun m' hm' =>
      h m' (List.mem_cons_of_mem _ hm'))]
    rfl

theorem readSurvey_ok (st : Store) (now : Nat) (up : Upstream) (sv : UpSurvey)
    (h1 : liveVal st now (surveyKey (Nat.repr sv.SurveyID))
      = some (.hash (surveyRec sv), some (now + SURVEY_TTL)))
    (h2 : liveVal st now (surveyMapsKey (Nat.repr sv.SurveyID))
      = if (up.mapsFor sv.SurveyID).isEmpty then none
        else some (.list ((up.mapsFor sv.SurveyID).map
            (fun m => Nat.repr m.MapID)), some (now + SURVEY_TTL)))
    (h3 : ∀ m ∈ up.mapsFor sv.SurveyID,
      liveVal st now (surveyMapKey (Nat.repr sv.SurveyID) (Nat.repr m.MapID))
        = some (.hash (mapRec m), some (now + SURVEY_TTL))) :
    readSurvey st now (Nat.repr sv.SurveyID) = .ok (surveyOutOf up sv) := by
  have hget := hgetall_of_liveVal_hash st now _ _ _ h1
  have hmids : lrange st now (surveyMapsKey (Nat.repr sv.SurveyID))
      ((llen st now (surveyMapsKey (Nat.repr sv.SurveyID)) : Int))
      = (up.mapsFor sv.SurveyID).map (fun m => Nat.repr m.MapID) := by
    by_cases he : (up.mapsFor sv.SurveyID).isEmpty
    · rw [if_pos he] at h2
      rw [lrange_of_liveVal_none st now _ _ h2]
      rw [List.isEmpty_iff.mp he]
      rfl
    · rw [if_neg he] at h2
      rw [llen_of_liveVal_list st now _ _ _ h2]
      rw [show (((up.mapsFor sv.SurveyID).map
          (fun m => Nat.repr m.MapID)).length : Int)
        = (((up.mapsFor sv.SurveyID).map
          (fun m => Nat.repr m.MapID)).length : Int) from rfl]
      exact lrange_all_len st now _ _ _ h2
  have hloop := readSurveyMapsLoop_ok st now (Nat.repr sv.SurveyID)
    (up.mapsFor sv.SurveyID)
    (fun m hm => readSurveyMap_ok st now _ m _ (h3 m hm))
  simp [readSurvey, hget, dGet, surveyRec, lookupD, pyInt_repr,
    str2bool_pyStrBool, hmids, hloop, surveyOutOf]

theorem readSurveysLoop_ok (st : Store) (now : Nat) (up : Upstream) :
    ∀ svs : List UpSurvey,
    (∀ sv ∈ svs, readSurvey st now (Nat.repr sv.SurveyID)
      = .ok (surveyOutOf up sv)) →
    readSurveysLoop st now (svs.map (fun sv => Nat.repr sv.SurveyID))
      = .ok (svs.map (surveyOutOf up)) := by
  intro svs
  induction svs with
  | nil => intro _; rfl
  | cons sv rest ih =>
    intro h
    show (match readSurvey st now (Nat.repr sv.SurveyID) with
      | Except.error e => Except.error e
      | Except.ok x =>
        match readSurveysLoop st now
            (rest.map (fun (sv : UpSurvey) => Nat.repr sv.SurveyID)) with
        | Except.error e => Except.error e
        | Except.ok xs => Except.ok (x :: xs)) = _
    rw [h sv (List.mem_cons_self ..), ih (fun sv' hsv' =>
      h sv' (List.mem_cons_of_mem _ hsv'))]
    rfl

/-- The full behaviour of `get_surveys` on an empty cache: one
survey-and-map refresh, then the serialised surveys in reverse upstream
order. -/
theorem get_surveys_cold (up : Upstream) (now : Nat)
    (hS : (up.surveys.map (fun sv => sv.SurveyID)).Nodup)
    (hM : ∀ sv ∈ up.surveys,
      ((up.mapsFor sv.SurveyID).map (fun m => m.MapID)).Nodup) :
    ∃ s', get_surveys up (emptyState now)
        = (.ok ((up.surveys.reverse).map (surveyOutOf up)), s') ∧
      (∀ k, isSurvShape k →
        lookupD s'.store k = lookupD (cacheStore up now) k) ∧
      countCall UpCall.surveysFetch s'.trace = 1 ∧
      ∀ sv ∈ up.surveys, UpCall.mapsFetch sv.SurveyID ∈ s'.trace := by
  obtain ⟨s₁, hcd, hnow, _, hframe, tr', htr, hcount, hmf⟩ :=
    cache_survey_data_state up (emptyState now) (Or.inl rfl)
  have hkey : ∀ k, isSurvShape k →
      lookupD s₁.store k = lookupD (cacheStore up now) k := by
    intro k hk
    obtain ⟨hne1, hne2⟩ := survShape_ne_token k hk
    exact hframe k hne1 hne2
  have hnow' : s₁.now = now := hnow
  have hread : ∀ sv ∈ up.surveys,
      readSurvey s₁.store now (Nat.repr sv.SurveyID)
        = .ok (surveyOutOf up sv) := by
    intro sv hsv
    apply readSurvey_ok s₁.store now up sv
    · have hl := hkey _ (survShape_surveyKey (Nat.repr sv.SurveyID))
      rw [cacheStore_surveyKey up now sv hsv hS] at hl
      exact liveVal_of_ttl _ _ _ _ _ hl (by decide)
    · have hl := hkey _ (survShape_surveyMapsKey (Nat.repr sv.SurveyID))
      rw [cacheStore_surveyMapsKey up now sv hsv hS] at hl
      by_cases he : (up.mapsFor sv.SurveyID).isEmpty
      · rw [if_pos he] at hl ⊢
        exact liveVal_of_lookupD_none _ _ _ hl
      · rw [if_neg he] at hl ⊢
        exact liveVal_of_ttl _ _ _ _ _ hl (by decide)
    · intro m hm
      have hl := hkey _ (survShape_surveyMapKey (Nat.repr sv.SurveyID)
        (Nat.repr m.MapID))
      rw [cacheStore_surveyMapKey up now sv m hsv hm hS (hM sv hsv)] at hl
      exact liveVal_of_ttl _ _ _ _ _ hl (by decide)
  refine ⟨s₁, ?_, hkey, ?_, ?_⟩
  · unfold get_surveys
    rw [if_pos (show llen (emptyState now).store (emptyState now).now
        surveysKey = 0 from rfl)]
    rw [hcd]
    show (match readSurveysLoop s₁.store s₁.now
        (lrange s₁.store s₁.now surveysKey
          ((llen s₁.store s₁.now surveysKey : Int) - 1)) with
      | Except.error e => raise e s₁
      | Except.ok svs => ok svs s₁) = _
    rw [hnow']
    by_cases he : up.surveys.isEmpty
    · have hnil : up.surveys = [] := List.isEmpty_iff.mp he
      have hlk := hkey surveysKey survShape_surveysKey
      rw [cacheStore_surveysKey, if_pos he] at hlk
      have hlv := liveVal_of_lookupD_none s₁.store now surveysKey hlk
      rw [llen_of_liveVal_none _ _ _ hlv, lrange_of_liveVal_none _ _ _ _ hlv]
      rw [hnil]
      rfl
    · have hlk := hkey surveysKey survShape_surveysKey
      rw [cacheStore_surveysKey, if_neg he] at hlk
      have hlv := liveVal_of_ttl _ _ _ _ _ hlk (by decide)
      rw [llen_of_liveVal_list _ _ _ _ _ hlv, lrange_all_sub1 _ _ _ _ _ hlv]
      have hxs : (up.surveys.map (fun sv => Nat.repr sv.SurveyID)).reverse
          = (up.surveys.reverse).map (fun sv => Nat.repr sv.SurveyID) := by
        rw [List.map_reverse]
      rw [hxs]
      rw [readSurveysLoop_ok s₁.store now up up.surveys.reverse
        (fun sv hsv => hread sv (List.mem_reverse.mp hsv))]
      rfl
  · rw [htr]
    show countCall UpCall.surveysFetch ([] ++ tr') = 1
    rw [List.nil_append]
    exact hcount
  · intro sv hsv
    rw [htr]
    show UpCall.mapsFetch sv.SurveyID ∈ [] ++ tr'
    rw [List.nil_append]
    exact hmf sv hsv

/-- C4: starting from an empty cache, `get_surveys` triggers a full
survey-and-map refresh (exactly one upstream surveys fetch, plus a maps
fetch for every survey) and, when upstream lists the surveys in
descending-id order, returns them ordered ascending by id, because
`_cache_survey_data` LPUSH-prepends each survey id onto the list. -/
theorem get_surveys_cold_ascending (up : Upstream) (now : Nat)
    (hdesc : up.surveys.Pairwise (fun a b => b.SurveyID < a.SurveyID))
    (hM : ∀ sv ∈ up.surveys,
      ((up.mapsFor sv.SurveyID).map (fun m => m.MapID)).Nodup) :
    ∃ s' out, get_surveys up (emptyState now) = (.ok out, s') ∧
      out = (up.surveys.reverse).map (surveyOutOf up) ∧
      (out.map (fun o => o.id)).Pairwise (fun a b => a < b) ∧
      countCall UpCall.surveysFetch s'.trace = 1 ∧
      ∀ sv ∈ up.surveys, UpCall.mapsFetch sv.SurveyID ∈ s'.trace := by
  have hS : (up.surveys.map (fun sv => sv.SurveyID)).Nodup :=
    hdesc.map _ (fun _ _ h => ne_of_gt h)
  obtain ⟨s', hgs, _, hc1, hc2⟩ := get_surveys_cold up now hS hM
  refine ⟨s', _, hgs, rfl, ?_, hc1, hc2⟩
  rw [List.map_map]
  have hrev : (up.surveys.reverse).Pairwise
      (fun a b => a.SurveyID < b.SurveyID) :=
    List.pairwise_reverse.mpr hdesc
  exact hrev.map _ (fun _ _ h => h)

/-- C4 witness: `upDemo` lists its surveys with ids `[2, 1]`. -/
theorem get_surveys_cold_ascending_witness :
    (upDemo.surveys.Pairwise (fun a b => b.SurveyID < a.SurveyID) ∧
     ∀ sv ∈ upDemo.surveys,
       ((upDemo.mapsFor sv.SurveyID).map (fun m => m.MapID)).Nodup) ∧
    ∃ s' out, get_surveys upDemo (emptyState 0) = (.ok out, s') ∧
      out = (upDemo.surveys.reverse).map (surveyOutOf upDemo) ∧
      (out.map (fun o => o.id)).Pairwise (fun a b => a < b) ∧
      countCall UpCall.surveysFetch s'.trace = 1 ∧
      ∀ sv ∈ upDemo.surveys, UpCall.mapsFetch sv.SurveyID ∈ s'.trace :=
  ⟨⟨by decide, by decide⟩,
    get_surveys_cold_ascending upDemo 0 (by decide) (by decide)⟩

/-- C5: a survey the populator writes with `active=True` is stored with
the string `"True"` in its hash record, and `get_surveys` reads it back
as the boolean `true` (decoded by `_str2bool`), inside an output record
carrying the survey's id. -/
theorem active_true_roundtrip (up : Upstream) (now : Nat) (sv : UpSurvey)
    (hsv : sv ∈ up.surveys) (hA : sv.Active = true)
    (hS : (up.surveys.map (fun x => x.SurveyID)).Nodup)
    (hM : ∀ x ∈ up.surveys,
      ((up.mapsFor x.SurveyID).map (fun m => m.MapID)).Nodup) :
    lookupD (surveyRec sv) "active" = some "True" ∧
    str2bool "True" = true ∧
    ∃ s' out, get_surveys up (emptyState now) = (.ok out, s') ∧
      lookupD s'.store (surveyKey (Nat.repr sv.SurveyID))
        = some (.hash (surveyRec sv), some (now + SURVEY_TTL)) ∧
      ∃ o ∈ out, o.id = sv.SurveyID ∧ o.active = true := by
  obtain ⟨s', hgs, hstore, _, _⟩ := get_surveys_cold up now hS hM
  refine ⟨?_, by decide, s', _, hgs, ?_, ?_⟩
  · simp [surveyRec, lookupD, hA, pyStrBool]
  · rw [hstore _ (survShape_surveyKey (Nat.repr sv.SurveyID))]
    exact cacheStore_surveyKey up now sv hsv hS
  · refine ⟨surveyOutOf up sv,
      List.mem_map.mpr ⟨sv, List.mem_reverse.mpr hsv, rfl⟩, rfl, ?_⟩
    show sv.Active = true
    exact hA

/-- C5 witness: survey 2 of `upDemo` is active. -/
theorem active_true_roundtrip_witness :
    ((⟨2, true, "B", "s2", "e2"⟩ : UpSurvey) ∈ upDemo.surveys ∧
     (⟨2, true, "B", "s2", "e2"⟩ : UpSurvey).Active = true) ∧
    (lookupD (surveyRec ⟨2, true, "B", "s2", "e2"⟩) "active" = some "True" ∧
     str2bool "True" = true ∧
     ∃ s' out, get_surveys upDemo (emptyState 0) = (.ok out, s') ∧
       lookupD s'.store (surveyKey (Nat.repr (2 : Nat)))
         = some (.hash (surveyRec ⟨2, true, "B", "s2", "e2"⟩),
             some (0 + SURVEY_TTL)) ∧
       ∃ o ∈ out, o.id = 2 ∧ o.active = true) :=
  ⟨⟨by decide, rfl⟩,
    active_true_roundtrip upDemo 0 ⟨2, true, "B", "s2", "e2"⟩ (by decide) rfl
      (by decide) (by decide)⟩

/-- `surveyMapsKey` is injective on arbitrary id strings. -/
theorem surveyMapsKey_inj_str (x y : String)
    (h : surveyMapsKey x = surveyMapsKey y) : x = y := by
  have hd := congrArg String.data h
  simp [surveyMapsKey, String.data_append] at hd
  exact String.ext hd

/-- A map record key never equals a map-list key, for colon-free ids. -/
theorem surveyMapKey_ne_surveyMapsKey_str (x y z : String)
    (hx : ':' ∉ x.data) (hz : ':' ∉ z.data) :
    surveyMapKey x y ≠ surveyMapsKey z := by
  intro h
  have hd := congrArg String.data h
  simp [surveyMapsKey, surveyMapKey, String.data_append] at hd
  obtain ⟨_, h2⟩ := sep_split hx hz hd
  have := congrArg List.length h2
  simp at this

/-- After the full survey refresh, the map list of a digit-only id that
matches no survey (or only surveys without maps) is absent. -/
theorem cacheStore_mapsKey_none (up : Upstream) (now : Nat) (sid : String)
    (hc : ':' ∉ sid.data)
    (hnd : (up.surveys.map (fun x => x.SurveyID)).Nodup)
    (hE : ∀ sv ∈ up.surveys, Nat.repr sv.SurveyID = sid →
      up.mapsFor sv.SurveyID = []) :
    lookupD (cacheStore up now) (surveyMapsKey sid) = none := by
  by_cases hex : ∃ sv ∈ up.surveys, Nat.repr sv.SurveyID = sid
  · obtain ⟨sv, hsv, hrepr⟩ := hex
    have hmk := cacheStore_surveyMapsKey up now sv hsv hnd
    rw [hrepr] at hmk
    rw [hmk, hE sv hsv hrepr]
    rfl
  · push_neg at hex
    unfold cacheStore
    rw [lookupD_applyCmds_fold, lookupD_applyCmds_fold]
    rw [outerCmds_frame_mapFamily now up.surveys (surveyMapsKey sid)
      (fun a => surveyKey_ne_surveyMapsKey a sid)
      (surveysKey_ne_surveyMapsKey sid)]
    rw [show lookupD ([] : Store) (surveyMapsKey sid) = none from rfl]
    apply keyFold_frame
    intro c hcin
    obtain ⟨sv, hsv, hcc⟩ := List.mem_flatMap.mp hcin
    rcases mapsForSurveyCmds_keys sv.SurveyID (up.mapsFor sv.SurveyID) c hcc
      with h2 | ⟨m, _, h2⟩ <;> rw [h2]
    · intro hh
      exact hex sv hsv (surveyMapsKey_inj_str _ _ hh)
    · exact surveyMapKey_ne_surveyMapsKey_str _ _ _
        (natRepr_colon_free sv.SurveyID) hc

/-- C7: on a digit-only survey id whose map list is (still) empty even
in the freshly fetched upstream data, `get_survey_sensors` first runs
one full survey refresh (one upstream surveys fetch) and then raises
`BadOccupEyeRequest` instead of returning an empty result. -/
theorem get_survey_sensors_no_maps_bad_request (up : Upstream) (now : Nat)
    (sid : String) (b : Bool) (hdig : pyIsDigit sid = true)
    (hnd : (up.surveys.map (fun x => x.SurveyID)).Nodup)
    (hE : ∀ sv ∈ up.surveys, Nat.repr sv.SurveyID = sid →
      up.mapsFor sv.SurveyID = []) :
    ∃ s', get_survey_sensors up sid b (emptyState now)
        = (Except.error PyErr.badOccupEyeRequest, s') ∧
      countCall UpCall.surveysFetch s'.trace = 1 := by
  obtain ⟨s₁, hcd, _, _, hframe, tr', htr, hcount, _⟩ :=
    cache_survey_data_state up (emptyState now) (Or.inl rfl)
  have hkm : lookupD s₁.store (surveyMapsKey sid) = none := by
    obtain ⟨hne1, hne2⟩ := survShape_ne_token _ (survShape_surveyMapsKey sid)
    rw [hframe _ hne1 hne2]
    exact cacheStore_mapsKey_none up now sid
      (pyIsDigit_colon_free sid hdig) hnd hE
  have hllen : llen s₁.store s₁.now (surveyMapsKey sid) = 0 :=
    llen_of_liveVal_none _ _ _ (liveVal_of_lookupD_none _ _ _ hkm)
  refine ⟨s₁, ?_, ?_⟩
  · unfold get_survey_sensors
    rw [hdig, if_neg (by decide : ¬(true = false))]
    rw [if_pos (show llen (emptyState now).store (emptyState now).now
        (surveyMapsKey sid) = 0 from rfl)]
    rw [hcd]
    show (if llen s₁.store s₁.now (surveyMapsKey sid) = 0 then
        raise PyErr.badOccupEyeRequest s₁
      else
        match mapsLoop up sid b (lrange s₁.store s₁.now (surveyMapsKey sid)
            ((llen s₁.store s₁.now (surveyMapsKey sid) : Int))) s₁ with
        | (Except.error e, s') => raise e s'
        | (Except.ok ms, s2) => ok ({ maps := ms } : SurveySensorsOut) s2) = _
    rw [if_pos hllen]
    rfl
  · rw [htr]
    show countCall UpCall.surveysFetch ([] ++ tr') = 1
    rw [List.nil_append]
    exact hcount

/-- C7 witness: `"3"` is digit-only but matches no survey of `upDemo`. -/
theorem get_survey_sensors_no_maps_bad_request_witness :
    (pyIsDigit "3" = true ∧
     (upDemo.surveys.map (fun x => x.SurveyID)).Nodup ∧
     ∀ sv ∈ upDemo.surveys, Nat.repr sv.SurveyID = "3" →
       upDemo.mapsFor sv.SurveyID = []) ∧
    ∃ s', get_survey_sensors upDemo "3" true (emptyState 0)
        = (Except.error PyErr.badOccupEyeRequest, s') ∧
      countCall UpCall.surveysFetch s'.trace = 1 :=
  ⟨⟨by decide, by decide, by decide⟩,
    get_survey_sensors_no_maps_bad_request upDemo 0 "3" true (by decide)
      (by decide) (by decide)⟩

/-! ## The image cache pair (C8): key geometry -/

/-- A key of the image namespace. -/
def isImgShape (k : String) : Prop := ∃ r, k = "occupeye:image:" ++ r

theorem imgShape_b64 (iid : String) : isImgShape (imageB64Key iid) :=
  ⟨iid ++ ":base64", by
    apply String.ext; simp [imageB64Key, String.data_append]⟩

theorem imgShape_ct (iid : String) : isImgShape (imageCTKey iid) :=
  ⟨iid ++ ":content_type", by
    apply String.ext; simp [imageCTKey, String.data_append]⟩

/-- Image keys live outside the token and survey namespaces. -/
theorem imgShape_off (k : String) (h : isImgShape k) :
    k ≠ tokenKey ∧ k ≠ tokenExpiryKey ∧
    ∀ r, k ≠ "occupeye:surveys" ++ r := by
  obtain ⟨r0, hr⟩ := h
  subst hr
  have hsplit : ("occupeye:image:" : String) ++ r0
      = "occupeye:i" ++ ("mage:" ++ r0) := by
    apply String.ext; simp [String.data_append]
  refine ⟨?_, ?_, ?_⟩
  · rw [show tokenKey = "occupeye:a" ++ "ccess_token" from by decide, hsplit]
    exact str_ne_of_ne_head _ _ _ _ (by decide) (by decide)
  · rw [show tokenExpiryKey = "occupeye:a" ++ "ccess_token_expiry" from by
      decide, hsplit]
    exact str_ne_of_ne_head _ _ _ _ (by decide) (by decide)
  · intro r
    rw [show ("occupeye:surveys" : String) ++ r
      = "occupeye:s" ++ ("urveys" ++ r) from by
        apply String.ext; simp [String.data_append], hsplit]
    exact str_ne_of_ne_head _ _ _ _ (by decide) (by decide)

theorem imageB64Key_inj (x y : String)
    (h : imageB64Key x = imageB64Key y) : x = y := by
  have hd := congrArg String.data h
  simp [imageB64Key, String.data_append] at hd
  exact String.ext hd

theorem imageCTKey_inj (x y : String)
    (h : imageCTKey x = imageCTKey y) : x = y := by
  have hd := congrArg String.data h
  simp [imageCTKey, String.data_append] at hd
  exact String.ext hd

/-- Payload and content-type keys never collide, across colon-free ids. -/
theorem imageB64Key_ne_imageCTKey (x y : String)
    (hx : ':' ∉ x.data) (hy : ':' ∉ y.data) :
    imageB64Key x ≠ imageCTKey y := by
  intro h
  have hd := congrArg String.data h
  simp [imageB64Key, imageCTKey, String.data_append] at hd
  obtain ⟨_, h2⟩ := sep_split hx hy hd
  have := congrArg List.length h2
  simp at this

/-! ## Every non-image populator writes only token or survey keys -/

/-- Keys outside the token and survey families (the image keys). -/
def OffKey (k : String) : Prop :=
  k ≠ tokenKey ∧ k ≠ tokenExpiryKey ∧ ∀ r, k ≠ "occupeye:surveys" ++ r

theorem off_imageB64 (iid : String) : OffKey (imageB64Key iid) :=
  imgShape_off _ (imgShape_b64 iid)

theorem off_imageCT (iid : String) : OffKey (imageCTKey iid) :=
  imgShape_off _ (imgShape_ct iid)

theorem offKey_ne_survShape (k j : String) (hk : OffKey k)
    (hj : isSurvShape j) : j ≠ k := by
  obtain ⟨r, hr⟩ := hj
  subst hr
  exact fun hh => hk.2.2 r hh.symm

theorem survShape_sensorsListKey (sid : String) :
    isSurvShape (sensorsListKey sid) :=
  ⟨":" ++ sid ++ ":sensors", by
    apply String.ext; simp [sensorsListKey, String.data_append]⟩

theorem survShape_sensorDataKey (sid hw : String) :
    isSurvShape (sensorDataKey sid hw) :=
  ⟨":" ++ sid ++ ":sensors:" ++ hw ++ ":data", by
    apply String.ext; simp [sensorDataKey, String.data_append]⟩

theorem survShape_sensorStatusKey (sid hw : String) :
    isSurvShape (sensorStatusKey sid hw) :=
  ⟨":" ++ sid ++ ":sensors:" ++ hw ++ ":status", by
    apply String.ext; simp [sensorStatusKey, String.data_append]⟩

theorem survShape_mapSensorsListKey (sid mid : String) :
    isSurvShape (mapSensorsListKey sid mid) :=
  ⟨":" ++ sid ++ ":maps:" ++ mid ++ ":sensors", by
    apply String.ext; simp [mapSensorsListKey, String.data_append]⟩

theorem survShape_mapSensorPropsKey (sid mid hw : String) :
    isSurvShape (mapSensorPropsKey sid mid hw) :=
  ⟨":" ++ sid ++ ":maps:" ++ mid ++ ":sensors:" ++ hw ++ ":properties", by
    apply String.ext
    simp [mapSensorPropsKey, mapSensorsListKey, String.data_append]⟩

theorem sensorStatesCmds_shape (sid : String) (states : List UpSensorState) :
    ∀ c ∈ sensorStatesCmds sid states, isSurvShape (RCmd.key c) := by
  intro c hc
  unfold sensorStatesCmds at hc
  rcases List.mem_cons.mp hc with hc | hc
  · rw [hc]; exact survShape_sensorsListKey sid
  rcases List.mem_append.mp hc with hc | hc
  · obtain ⟨sd, _, hin⟩ := List.mem_flatMap.mp hc
    simp only [List.mem_cons, List.not_mem_nil, or_false] at hin
    rcases hin with h1 | h1 | h1 | h1 | h1 <;> rw [h1]
    · exact survShape_sensorDataKey sid _
    · exact survShape_sensorStatusKey sid _
    · exact survShape_sensorsListKey sid
    · exact survShape_sensorDataKey sid _
    · exact survShape_sensorStatusKey sid _
  · simp only [List.mem_singleton] at hc
    rw [hc]; exact survShape_sensorsListKey sid

theorem mapSensorCmds_shape (sid mid : String) (data : List UpMapSensor) :
    ∀ c ∈ mapSensorCmds sid mid data, isSurvShape (RCmd.key c) := by
  intro c hc
  unfold mapSensorCmds at hc
  rcases List.mem_cons.mp hc with hc | hc
  · rw [hc]; exact survShape_mapSensorsListKey sid mid
  rcases List.mem_append.mp hc with hc | hc
  · obtain ⟨d, _, hin⟩ := List.mem_flatMap.mp hc
    simp only [List.mem_cons, List.not_mem_nil, or_false] at hin
    rcases hin with h1 | h1 | h1 <;> rw [h1]
    · exact survShape_mapSensorsListKey sid mid
    · exact survShape_mapSensorPropsKey sid mid _
    · exact survShape_mapSensorPropsKey sid mid _
  · simp only [List.mem_singleton] at hc
    rw [hc]; exact survShape_mapSensorsListKey sid mid

/-- Applying a batch of survey-family commands leaves off-family keys
untouched. -/
theorem applyCmds_shape_frame (now : Nat) (st : Store) (cmds : List RCmd)
    (k : String) (hoff : OffKey k)
    (h : ∀ c ∈ cmds, isSurvShape (RCmd.key c)) :
    lookupD (applyCmds now st cmds) k = lookupD st k :=
  lookupD_applyCmds_ne now st cmds k
    (fun c hc => offKey_ne_survShape k _ hoff (h c hc))

theorem bearer_return_snd (s1 : ApiState) : (bearer_return s1).2 = s1 := by
  unfold bearer_return
  cases s1.access_token <;> rfl

theorem get_token_off (up : Upstream) (s : ApiState) (k : String)
    (hoff : OffKey k) :
    lookupD (get_token up s).store k = lookupD s.store k := by
  show lookupD (applyCmds s.now s.store
    [.set tokenKey up.tokenResp.access_token,
     .set tokenExpiryKey (Nat.repr (s.now + up.tokenResp.expires_in))]) k
    = lookupD s.store k
  apply lookupD_applyCmds_ne
  intro c hc
  simp only [List.mem_cons, List.not_mem_nil, or_false] at hc
  rcases hc with h1 | h1 <;> rw [h1]
  · exact fun hh => hoff.1 hh.symm
  · exact fun hh => hoff.2.1 hh.symm

theorem bearer_off (up : Upstream) (s : ApiState) (k : String)
    (hoff : OffKey k) :
    lookupD (get_bearer_token up s).2.store k = lookupD s.store k := by
  unfold get_bearer_token
  split
  · rfl
  · rw [bearer_return_snd]
    split
    · rfl
    · exact get_token_off up s k hoff

theorem cache_maps_off (up : Upstream) (i : Nat) (s : ApiState) (k : String)
    (hoff : OffKey k) :
    lookupD (cache_maps_for_survey up i s).2.store k = lookupD s.store k := by
  unfold cache_maps_for_survey
  split
  · rename_i e s' heq
    have h := bearer_off up s k hoff
    rw [heq] at h
    exact h
  · rename_i u s1 heq
    have h := bearer_off up s k hoff
    rw [heq] at h
    show lookupD (applyCmds s1.now s1.store
      (mapsForSurveyCmds i (up.mapsFor i))) k = lookupD s.store k
    have hsh : ∀ c ∈ mapsForSurveyCmds i (up.mapsFor i),
        isSurvShape (RCmd.key c) := by
      intro c hc
      rcases mapsForSurveyCmds_keys i (up.mapsFor i) c hc
        with h1 | ⟨m, _, h1⟩ <;> rw [h1]
      · exact survShape_surveyMapsKey _
      · exact survShape_surveyMapKey _ _
    rw [applyCmds_shape_frame s1.now s1.store _ k hoff hsh]
    exact h

/-- Commands returned by the outer survey loop address survey keys only. -/
theorem cache_loop_cmds_shape (up : Upstream) (svs : List UpSurvey) :
    ∀ (s : ApiState) (cmds : List RCmd) (s' : ApiState),
      cache_survey_loop up svs s = (.ok cmds, s') →
      ∀ c ∈ cmds, isSurvShape (RCmd.key c) := by
  induction svs with
  | nil =>
    intro s cmds s' h c hc
    simp only [cache_survey_loop, ok, Prod.mk.injEq, Except.ok.injEq] at h
    rw [← h.1] at hc
    exact absurd hc (List.not_mem_nil c)
  | cons sv rest ih =>
    intro s cmds s' h c hc
    rw [show cache_survey_loop up (sv :: rest) s
        = (match cache_maps_for_survey up sv.SurveyID s with
          | (.error e, s') => raise e s'
          | (.ok _, s1) =>
            match cache_survey_loop up rest s1 with
            | (.error e, s') => raise e s'
            | (.ok cmds, s2) => ok (surveyCmds sv ++ cmds) s2) from rfl] at h
    split at h
    · simp [raise] at h
    · split at h
      · simp [raise] at h
      · rename_i heq2
        simp only [ok, Prod.mk.injEq, Except.ok.injEq] at h
        rw [← h.1] at hc
        rcases List.mem_append.mp hc with hc | hc
        · rcases surveyCmds_keys sv c hc with h1 | h1 <;> rw [h1]
          · exact survShape_surveyKey _
          · exact survShape_surveysKey
        · exact ih _ _ _ heq2 c hc

theorem cache_loop_off (up : Upstream) (svs : List UpSurvey) :
    ∀ (s : ApiState) (k : String), OffKey k →
      lookupD (cache_survey_loop up svs s).2.store k = lookupD s.store k := by
  induction svs with
  | nil => intro s k _; rfl
  | cons sv rest ih =>
    intro s k hoff
    show lookupD (match cache_maps_for_survey up sv.SurveyID s with
      | (Except.error e, s') => raise e s'
      | (Except.ok _, s1) =>
        match cache_survey_loop up rest s1 with
        | (Except.error e, s') => raise e s'
        | (Except.ok cmds, s2) =>
          ok (surveyCmds sv ++ cmds) s2).2.store k = lookupD s.store k
    have hm := cache_maps_off up sv.SurveyID s k hoff
    split
    · rename_i e s' heq
      rw [heq] at hm
      exact hm
    · rename_i u s1 heq
      rw [heq] at hm
      have hr := ih s1 k hoff
      split
      · rename_i e s' heq2
        rw [heq2] at hr
        exact hr.trans hm
      · rename_i cmds s2 heq2
        rw [heq2] at hr
        exact hr.trans hm

theorem cache_survey_data_off (up : Upstream) (s : ApiState) (k : String)
    (hoff : OffKey k) :
    lookupD (cache_survey_data up s).2.store k = lookupD s.store k := by
  unfold cache_survey_data
  split
  · rename_i e s' heq
    have h := bearer_off up s k hoff
    rw [heq] at h
    exact h
  · rename_i u s1 heq
    have hb := bearer_off up s k hoff
    rw [heq] at hb
    have hl := cache_loop_off up up.surveys (addTrace .surveysFetch s1) k hoff
    show lookupD (match cache_survey_loop up up.surveys
        (addTrace UpCall.surveysFetch s1) with
      | (Except.error e, s') => raise e s'
      | (Except.ok cmds, s3) =>
        ok () { s3 with
            store := applyCmds s3.now s3.store
              (RCmd.del surveysKey :: cmds
                ++ [RCmd.expire surveysKey SURVEY_TTL]) }).2.store k
      = lookupD s.store k
    split
    · rename_i e s' heq2
      rw [heq2] at hl
      exact hl.trans hb
    · rename_i cmds s3 heq2
      rw [heq2] at hl
      show lookupD (applyCmds s3.now s3.store
        (RCmd.del surveysKey :: cmds
          ++ [RCmd.expire surveysKey SURVEY_TTL])) k = lookupD s.store k
      have hsh : ∀ c ∈ RCmd.del surveysKey :: cmds
          ++ [RCmd.expire surveysKey SURVEY_TTL],
          isSurvShape (RCmd.key c) := by
        intro c hc
        rcases List.mem_cons.mp hc with h1 | hc
        · rw [h1]; exact survShape_surveysKey
        rcases List.mem_append.mp hc with hc | hc
        · exact cache_loop_cmds_shape up up.surveys _ cmds s3 heq2 c hc
        · simp only [List.mem_singleton] at hc
          rw [hc]; exact survShape_surveysKey
      rw [applyCmds_shape_frame s3.now s3.store _ k hoff hsh]
      exact hl.trans hb

theorem cache_states_off (up : Upstream) (sid : String) (s : ApiState)
    (k : String) (hoff : OffKey k) :
    lookupD (cache_all_survey_sensor_states up sid s).2.store k
      = lookupD s.store k := by
  unfold cache_all_survey_sensor_states
  split
  · rename_i e s' heq
    have h := bearer_off up s k hoff
    rw [heq] at h
    exact h
  · rename_i u s1 heq
    have h := bearer_off up s k hoff
    rw [heq] at h
    show lookupD (applyCmds s1.now s1.store
      (sensorStatesCmds sid (up.sensorStates sid))) k = lookupD s.store k
    rw [applyCmds_shape_frame s1.now s1.store _ k hoff
      (sensorStatesCmds_shape sid _)]
    exact h

theorem cache_map_sensors_off (up : Upstream) (sid mid : String)
    (s : ApiState) (k : String) (hoff : OffKey k) :
    lookupD (cache_sensors_for_map up sid mid s).2.store k
      = lookupD s.store k := by
  unfold cache_sensors_for_map
  split
  · rename_i e s' heq
    have h := bearer_off up s k hoff
    rw [heq] at h
    exact h
  · rename_i u s1 heq
    have h := bearer_off up s k hoff
    rw [heq] at h
    show lookupD (applyCmds s1.now s1.store
      (mapSensorCmds sid mid (up.mapSensors mid))) k = lookupD s.store k
    rw [applyCmds_shape_frame s1.now s1.store _ k hoff
      (mapSensorCmds_shape sid mid _)]
    exact h

theorem oneMap_off (up : Upstream) (sid : String) (b : Bool) (mid : String)
    (s : ApiState) (k : String) (hoff : OffKey k) :
    lookupD (oneMap up sid b mid s).2.store k = lookupD s.store k := by
  unfold oneMap
  split
  · rename_i e s' heq
    by_cases hll : llen s.store s.now (mapSensorsListKey sid mid) = 0
    · rw [if_pos hll] at heq
      have h := cache_map_sensors_off up sid mid s k hoff
      rw [heq] at h
      exact h
    · rw [if_neg hll] at heq
      simp [ok] at heq
  · rename_i u s1 heq
    have h1 : lookupD s1.store k = lookupD s.store k := by
      by_cases hll : llen s.store s.now (mapSensorsListKey sid mid) = 0
      · rw [if_pos hll] at heq
        have h := cache_map_sensors_off up sid mid s k hoff
        rw [heq] at h
        exact h
      · rw [if_neg hll] at heq
        have hss : s = s1 := congrArg Prod.snd heq
        rw [← hss]
    show lookupD (match propsLoop s1.store s1.now sid mid
        (lrange s1.store s1.now (mapSensorsListKey sid mid)
          ((llen s1.store s1.now (mapSensorsListKey sid mid) : Int))) [] with
      | Except.error e => raise e s1
      | Except.ok sensors0 =>
        if b then
          match (lrange s1.store s1.now (mapSensorsListKey sid mid)
              ((llen s1.store s1.now (mapSensorsListKey sid mid) : Int))).head? with
          | none => raise PyErr.indexError s1
          | some hw0 =>
            match rget s1.store s1.now (probeStatusKey sid mid hw0) with
            | Except.error e => raise e s1
            | Except.ok probe =>
              match (if probe = none
                     then cache_all_survey_sensor_states up sid s1
                     else ok () s1) with
              | (Except.error e, s') => raise e s'
              | (Except.ok _, s2) =>
                match statesLoop s2.store s2.now sid
                    (lrange s1.store s1.now (mapSensorsListKey sid mid)
                      ((llen s1.store s1.now (mapSensorsListKey sid mid) : Int)))
                    sensors0 with
                | Except.error e => raise e s2
                | Except.ok sensors1 =>
                  ok ({ fields := hgetall s2.store s2.now (surveyMapKey sid mid),
                        sensors := sensors1 } : MapSensorsOut) s2
        else
          ok ({ fields := hgetall s1.store s1.now (surveyMapKey sid mid),
                sensors := sensors0 } : MapSensorsOut) s1).2.store k
      = lookupD s.store k
    split
    · exact h1
    · split
      · split
        · exact h1
        · split
          · exact h1
          · rename_i probe heqr
            split
            · rename_i e s' heq2
              by_cases hpn : probe = none
              · rw [if_pos hpn] at heq2
                have h := cache_states_off up sid s1 k hoff
                rw [heq2] at h
                exact h.trans h1
              · rw [if_neg hpn] at heq2
                simp [ok] at heq2
            · rename_i u2 s2 heq2
              have h2 : lookupD s2.store k = lookupD s1.store k := by
                by_cases hpn : probe = none
                · rw [if_pos hpn] at heq2
                  have h := cache_states_off up sid s1 k hoff
                  rw [heq2] at h
                  exact h
                · rw [if_neg hpn] at heq2
                  have hss : s1 = s2 := congrArg Prod.snd heq2
                  rw [← hss]
              split
              · exact h2.trans h1
              · exact h2.trans h1
      · exact h1

theorem mapsLoop_off (up : Upstream) (sid : String) (b : Bool) :
    ∀ (mids : List String) (s : ApiState) (k : String), OffKey k →
      lookupD (mapsLoop up sid b mids s).2.store k = lookupD s.store k := by
  intro mids
  induction mids with
  | nil => intro s k _; rfl
  | cons mid rest ih =>
    intro s k hoff
    show lookupD (match oneMap up sid b mid s with
      | (Except.error e, s') => raise e s'
      | (Except.ok m, s1) =>
        match mapsLoop up sid b rest s1 with
        | (Except.error e, s') => raise e s'
        | (Except.ok ms, s2) => ok (m :: ms) s2).2.store k = lookupD s.store k
    have hm := oneMap_off up sid b mid s k hoff
    split
    · rename_i e s' heq
      rw [heq] at hm
      exact hm
    · rename_i m s1 heq
      rw [heq] at hm
      have hr := ih s1 k hoff
      split
      · rename_i e s' heq2
        rw [heq2] at hr
        exact hr.trans hm
      · rename_i ms s2 heq2
        rw [heq2] at hr
        exact hr.trans hm

theorem get_survey_sensors_off (up : Upstream) (sid : String) (b : Bool)
    (s : ApiState) (k : String) (hoff : OffKey k) :
    lookupD (get_survey_sensors up sid b s).2.store k = lookupD s.store k := by
  unfold get_survey_sensors
  split
  · rfl
  · split
    · rename_i e s' heq
      by_cases hll : llen s.store s.now (surveyMapsKey sid) = 0
      · rw [if_pos hll] at heq
        have h := cache_survey_data_off up s k hoff
        rw [heq] at h
        exact h
      · rw [if_neg hll] at heq
        simp [ok] at heq
    · rename_i u s1 heq
      have h1 : lookupD s1.store k = lookupD s.store k := by
        by_cases hll : llen s.store s.now (surveyMapsKey sid) = 0
        · rw [if_pos hll] at heq
          have h := cache_survey_data_off up s k hoff
          rw [heq] at h
          exact h
        · rw [if_neg hll] at heq
          have hss : s = s1 := congrArg Prod.snd heq
          rw [← hss]
      split
      · exact h1
      · show lookupD (match mapsLoop up sid b
            (lrange s1.store s1.now (surveyMapsKey sid)
              ((llen s1.store s1.now (surveyMapsKey sid) : Int))) s1 with
          | (Except.error e, s') => raise e s'
          | (Except.ok ms, s2) =>
            ok ({ maps := ms } : SurveySensorsOut) s2).2.store k
          = lookupD s.store k
        have hm := mapsLoop_off up sid b
          (lrange s1.store s1.now (surveyMapsKey sid)
            ((llen s1.store s1.now (surveyMapsKey sid) : Int))) s1 k hoff
        split
        · rename_i e s' heq2
          rw [heq2] at hm
          exact hm.trans h1
        · rename_i ms s2 heq2
          rw [heq2] at hm
          exact hm.trans h1

theorem get_surveys_off (up : Upstream) (s : ApiState) (k : String)
    (hoff : OffKey k) :
    lookupD (get_surveys up s).2.store k = lookupD s.store k := by
  unfold get_surveys
  split
  · rename_i e s' heq
    by_cases hll : llen s.store s.now surveysKey = 0
    · rw [if_pos hll] at heq
      have h := cache_survey_data_off up s k hoff
      rw [heq] at h
      exact h
    · rw [if_neg hll] at heq
      simp [ok] at heq
  · rename_i u s1 heq
    have h1 : lookupD s1.store k = lookupD s.store k := by
      by_cases hll : llen s.store s.now surveysKey = 0
      · rw [if_pos hll] at heq
        have h := cache_survey_data_off up s k hoff
        rw [heq] at h
        exact h
      · rw [if_neg hll] at heq
        have hss : s = s1 := congrArg Prod.snd heq
        rw [← hss]
    show lookupD (match readSurveysLoop s1.store s1.now
        (lrange s1.store s1.now surveysKey
          ((llen s1.store s1.now surveysKey : Int) - 1)) with
      | Except.error e => raise e s1
      | Except.ok svs => ok svs s1).2.store k = lookupD s.store k
    split
    · exact h1
    · exact h1

/-! ## The paired-image invariant -/

/-- For every (digit-only) image id, the payload and content-type cache
entries are either both absent or both present as strings sharing one
absolute expiry deadline — the store-level form of "written with
identical TTL in the same batch". -/
def ImgPaired (s : ApiState) : Prop :=
  ∀ iid, pyIsDigit iid = true →
    (lookupD s.store (imageB64Key iid) = none ∧
     lookupD s.store (imageCTKey iid) = none) ∨
    ∃ p c d,
      lookupD s.store (imageB64Key iid) = some (RVal.str p, some d) ∧
      lookupD s.store (imageCTKey iid) = some (RVal.str c, some d)

theorem ImgPaired_of_frame (s s' : ApiState)
    (h : ∀ k, OffKey k → lookupD s'.store k = lookupD s.store k)
    (hp : ImgPaired s) : ImgPaired s' := by
  intro iid hd
  rw [h _ (off_imageB64 iid), h _ (off_imageCT iid)]
  exact hp iid hd

theorem imageCmds_b64 (now : Nat) (st : Store) (iid : String) (img : UpImage)
    (hc : ':' ∉ iid.data) :
    lookupD (applyCmds now st (imageCmds iid img)) (imageB64Key iid)
      = some (RVal.str img.payload, some (now + IMAGE_TTL)) := by
  have hne : imageCTKey iid ≠ imageB64Key iid :=
    Ne.symm (imageB64Key_ne_imageCTKey iid iid hc hc)
  rw [lookupD_applyCmds_fold]
  have h1 : ∀ o, keyStep now (imageB64Key iid) o
      (RCmd.set (imageB64Key iid) img.payload)
      = some (RVal.str img.payload, none) := by
    intro o; unfold keyStep; simp only [RCmd.key]; rw [if_pos trivial]; rfl
  have h2 : keyStep now (imageB64Key iid)
      (some (RVal.str img.payload, none))
      (RCmd.expire (imageB64Key iid) IMAGE_TTL)
      = some (RVal.str img.payload, some (now + IMAGE_TTL)) := by
    unfold keyStep; simp only [RCmd.key]; rw [if_pos trivial]; rfl
  have h3 : ∀ o, keyStep now (imageB64Key iid) o
      (RCmd.set (imageCTKey iid) img.contentType) = o := by
    intro o; unfold keyStep; simp only [RCmd.key]; rw [if_neg hne]
  have h4 : ∀ o, keyStep now (imageB64Key iid) o
      (RCmd.expire (imageCTKey iid) IMAGE_TTL) = o := by
    intro o; unfold keyStep; simp only [RCmd.key]; rw [if_neg hne]
  show [RCmd.set (imageB64Key iid) img.payload,
        RCmd.expire (imageB64Key iid) IMAGE_TTL,
        RCmd.set (imageCTKey iid) img.contentType,
        RCmd.expire (imageCTKey iid) IMAGE_TTL].foldl
      (keyStep now (imageB64Key iid)) (lookupD st (imageB64Key iid))
    = some (RVal.str img.payload, some (now + IMAGE_TTL))
  rw [List.foldl_cons, h1, List.foldl_cons, h2, List.foldl_cons, h3,
    List.foldl_cons, h4, List.foldl_nil]

theorem imageCmds_ct (now : Nat) (st : Store) (iid : String) (img : UpImage)
    (hc : ':' ∉ iid.data) :
    lookupD (applyCmds now st (imageCmds iid img)) (imageCTKey iid)
      = some (RVal.str img.contentType, some (now + IMAGE_TTL)) := by
  have hne : imageB64Key iid ≠ imageCTKey iid :=
    imageB64Key_ne_imageCTKey iid iid hc hc
  rw [lookupD_applyCmds_fold]
  have h1 : ∀ o, keyStep now (imageCTKey iid) o
      (RCmd.set (imageB64Key iid) img.payload) = o := by
    intro o; unfold keyStep; simp only [RCmd.key]; rw [if_neg hne]
  have h2 : ∀ o, keyStep now (imageCTKey iid) o
      (RCmd.expire (imageB64Key iid) IMAGE_TTL) = o := by
    intro o; unfold keyStep; simp only [RCmd.key]; rw [if_neg hne]
  have h3 : ∀ o, keyStep now (imageCTKey iid) o
      (RCmd.set (imageCTKey iid) img.contentType)
      = some (RVal.str img.contentType, none) := by
    intro o; unfold keyStep; simp only [RCmd.key]; rw [if_pos trivial]; rfl
  have h4 : keyStep now (imageCTKey iid)
      (some (RVal.str img.contentType, none))
      (RCmd.expire (imageCTKey iid) IMAGE_TTL)
      = some (RVal.str img.contentType, some (now + IMAGE_TTL)) := by
    unfold keyStep; simp only [RCmd.key]; rw [if_pos trivial]; rfl
  show [RCmd.set (imageB64Key iid) img.payload,
        RCmd.expire (imageB64Key iid) IMAGE_TTL,
        RCmd.set (imageCTKey iid) img.contentType,
        RCmd.expire (imageCTKey iid) IMAGE_TTL].foldl
      (keyStep now (imageCTKey iid)) (lookupD st (imageCTKey iid))
    = some (RVal.str img.contentType, some (now + IMAGE_TTL))
  rw [List.foldl_cons, h1, List.foldl_cons, h2, List.foldl_cons, h3,
    List.foldl_cons, h4, List.foldl_nil]

theorem imageCmds_frame (now : Nat) (st : Store) (iid : String)
    (img : UpImage) (k : String)
    (h1 : imageB64Key iid ≠ k) (h2 : imageCTKey iid ≠ k) :
    lookupD (applyCmds now st (imageCmds iid img)) k = lookupD st k := by
  apply lookupD_applyCmds_ne
  intro c hc
  simp only [imageCmds, List.mem_cons, List.not_mem_nil, or_false] at hc
  rcases hc with h | h | h | h <;> rw [h]
  · exact h1
  · exact h1
  · exact h2
  · exact h2

theorem ImgPaired_cache_image (up : Upstream) (iid : String) (s : ApiState)
    (hdig : pyIsDigit iid = true) (hp : ImgPaired s) :
    ImgPaired (cache_image up iid s).2 := by
  unfold cache_image
  split
  · rename_i e s' heq
    refine ImgPaired_of_frame s _ ?_ hp
    intro k hoff
    have h := bearer_off up s k hoff
    rw [heq] at h
    exact h
  · rename_i u s1 heq
    have h1 : ∀ k, OffKey k → lookupD s1.store k = lookupD s.store k := by
      intro k hoff
      have h := bearer_off up s k hoff
      rw [heq] at h
      exact h
    split
    · exact ImgPaired_of_frame s _ h1 hp
    · rename_i img himg
      intro iid' hdig'
      by_cases hii : iid' = iid
      · subst hii
        right
        refine ⟨img.payload, img.contentType, s1.now + IMAGE_TTL, ?_, ?_⟩
        · exact imageCmds_b64 s1.now s1.store iid' img
            (pyIsDigit_colon_free iid' hdig')
        · exact imageCmds_ct s1.now s1.store iid' img
            (pyIsDigit_colon_free iid' hdig')
      · have hcf' := pyIsDigit_colon_free iid' hdig'
        have hcf := pyIsDigit_colon_free iid hdig
        have hb1 : imageB64Key iid ≠ imageB64Key iid' :=
          fun hh => hii (imageB64Key_inj _ _ hh).symm
        have hb2 : imageCTKey iid ≠ imageB64Key iid' :=
          Ne.symm (imageB64Key_ne_imageCTKey iid' iid hcf' hcf)
        have hb3 : imageB64Key iid ≠ imageCTKey iid' :=
          imageB64Key_ne_imageCTKey iid iid' hcf hcf'
        have hb4 : imageCTKey iid ≠ imageCTKey iid' :=
          fun hh => hii (imageCTKey_inj _ _ hh).symm
        have hf1 : lookupD (applyCmds s1.now s1.store (imageCmds iid img))
            (imageB64Key iid') = lookupD s.store (imageB64Key iid') := by
          rw [imageCmds_frame s1.now s1.store iid img _ hb1 hb2]
          exact h1 _ (off_imageB64 iid')
        have hf2 : lookupD (applyCmds s1.now s1.store (imageCmds iid img))
            (imageCTKey iid') = lookupD s.store (imageCTKey iid') := by
          rw [imageCmds_frame s1.now s1.store iid img _ hb3 hb4]
          exact h1 _ (off_imageCT iid')
        rcases hp iid' hdig' with ⟨hn1, hn2⟩ | ⟨p, c, d, hs1, hs2⟩
        · exact Or.inl ⟨hf1.trans hn1, hf2.trans hn2⟩
        · exact Or.inr ⟨p, c, d, hf1.trans hs1, hf2.trans hs2⟩

theorem ImgPaired_get_image (up : Upstream) (iid : String) (s : ApiState)
    (hp : ImgPaired s) : ImgPaired (get_image up iid s).2 := by
  unfold get_image
  split
  · exact hp
  · rename_i hd
    have hdig : pyIsDigit iid = true := by
      cases hq : pyIsDigit iid
      · exact absurd hq hd
      · rfl
    split
    · rename_i e s' heq
      by_cases hre : rexists s.store s.now (imageB64Key iid) = false
      · rw [if_pos hre] at heq
        have h := ImgPaired_cache_image up iid s hdig hp
        rw [heq] at h
        exact h
      · rw [if_neg hre] at heq
        simp [ok] at heq
    · rename_i u s1 heq
      have h1 : ImgPaired s1 := by
        by_cases hre : rexists s.store s.now (imageB64Key iid) = false
        · rw [if_pos hre] at heq
          have h := ImgPaired_cache_image up iid s hdig hp
          rw [heq] at h
          exact h
        · rw [if_neg hre] at heq
          have hss : s = s1 := congrArg Prod.snd heq
          rw [← hss]
          exact hp
      split
      · exact h1
      · split
        · exact h1
        · exact h1

/-- The API states reachable from a fresh instance: clock advances and
the four public entry points, in any sequence, keeping the state of
every call (successful or not). -/
inductive Reach (up : Upstream) : ApiState → Prop where
  | init (now : Nat) : Reach up (emptyState now)
  | tick (d : Nat) (s : ApiState) : Reach up s → Reach up (tick d s)
  | bearer (s : ApiState) : Reach up s → Reach up (get_bearer_token up s).2
  | surveys (s : ApiState) : Reach up s → Reach up (get_surveys up s).2
  | image (iid : String) (s : ApiState) : Reach up s →
      Reach up (get_image up iid s).2
  | sensors (sid : String) (b : Bool) (s : ApiState) : Reach up s →
      Reach up (get_survey_sensors up sid b s).2

theorem ImgPaired_reach (up : Upstream) (s : ApiState) (h : Reach up s) :
    ImgPaired s := by
  induction h with
  | init now => intro iid _; exact Or.inl ⟨rfl, rfl⟩
  | tick d s _ ih => exact ih
  | bearer s _ ih =>
    exact ImgPaired_of_frame s _ (fun k hoff => bearer_off up s k hoff) ih
  | surveys s _ ih =>
    exact ImgPaired_of_frame s _ (fun k hoff => get_surveys_off up s k hoff) ih
  | image iid s _ ih => exact ImgPaired_get_image up iid s ih
  | sensors sid b s _ ih =>
    exact ImgPaired_of_frame s _
      (fun k hoff => get_survey_sensors_off up sid b s k hoff) ih

/-- C8: the image payload and content type are kept as a pair of
entries with one shared expiry deadline (they are written by
`_cache_image` with identical TTL in one batch), and on every reachable
state `get_image` returns them as one unit: a successful call never
yields one field present and the other absent. -/
theorem get_image_pair (up : Upstream) (s : ApiState) (h : Reach up s)
    (iid : String) (b64 ct : Option String) (s' : ApiState)
    (hres : get_image up iid s = (.ok (b64, ct), s')) :
    b64.isSome = ct.isSome ∧ ImgPaired s' := by
  have hp := ImgPaired_reach up s h
  have hp' : ImgPaired s' := by
    have hh := ImgPaired_get_image up iid s hp
    rw [hres] at hh
    exact hh
  refine ⟨?_, hp'⟩
  unfold get_image at hres
  by_cases hd : pyIsDigit iid = false
  · rw [if_pos hd] at hres
    simp [raise] at hres
  · rw [if_neg hd] at hres
    have hdig : pyIsDigit iid = true := by
      cases hq : pyIsDigit iid
      · exact absurd hq hd
      · rfl
    split at hres
    · simp [raise] at hres
    · rename_i u s1 heq
      have hp1 : ImgPaired s1 := by
        by_cases hre : rexists s.store s.now (imageB64Key iid) = false
        · rw [if_pos hre] at heq
          have hh := ImgPaired_cache_image up iid s hdig hp
          rw [heq] at hh
          exact hh
        · rw [if_neg hre] at heq
          have hss : s = s1 := congrArg Prod.snd heq
          rw [← hss]
          exact hp
      split at hres
      · simp [raise] at hres
      · rename_i b64v heqr1
        split at hres
        · simp [raise] at hres
        · rename_i ctv heqr2
          simp only [ok, Prod.mk.injEq, Except.ok.injEq] at hres
          rw [← hres.1.1, ← hres.1.2]
          rcases hp1 iid hdig with ⟨hn1, hn2⟩ | ⟨p, c, d, hs1, hs2⟩
          · have hr1 : rget s1.store s1.now (imageB64Key iid)
                = .ok none := by
              unfold rget
              rw [show liveVal s1.store s1.now (imageB64Key iid) = none
                from liveVal_of_lookupD_none _ _ _ hn1]
            have hr2 : rget s1.store s1.now (imageCTKey iid)
                = .ok none := by
              unfold rget
              rw [show liveVal s1.store s1.now (imageCTKey iid) = none
                from liveVal_of_lookupD_none _ _ _ hn2]
            rw [← Except.ok.inj (hr1.symm.trans heqr1),
              ← Except.ok.inj (hr2.symm.trans heqr2)]
          · by_cases hlive : s1.now < d
            · have hv1 : liveVal s1.store s1.now (imageB64Key iid)
                  = some (RVal.str p, some d) := by
                rw [liveVal_eq, hs1]
                show (if s1.now < d then some (RVal.str p, some d) else none)
                  = some (RVal.str p, some d)
                rw [if_pos hlive]
              have hv2 : liveVal s1.store s1.now (imageCTKey iid)
                  = some (RVal.str c, some d) := by
                rw [liveVal_eq, hs2]
                show (if s1.now < d then some (RVal.str c, some d) else none)
                  = some (RVal.str c, some d)
                rw [if_pos hlive]
              have hr1 : rget s1.store s1.now (imageB64Key iid)
                  = .ok (some p) := by
                unfold rget
                rw [hv1]
              have hr2 : rget s1.store s1.now (imageCTKey iid)
                  = .ok (some c) := by
                unfold rget
                rw [hv2]
              rw [← Except.ok.inj (hr1.symm.trans heqr1),
                ← Except.ok.inj (hr2.symm.trans heqr2)]
              rfl
            · have hv1 : liveVal s1.store s1.now (imageB64Key iid)
                  = none := by
                rw [liveVal_eq, hs1]
                show (if s1.now < d then some (RVal.str p, some d) else none)
                  = none
                rw [if_neg hlive]
              have hv2 : liveVal s1.store s1.now (imageCTKey iid)
                  = none := by
                rw [liveVal_eq, hs2]
                show (if s1.now < d then some (RVal.str c, some d) else none)
                  = none
                rw [if_neg hlive]
              have hr1 : rget s1.store s1.now (imageB64Key iid)
                  = .ok none := by
                unfold rget
                rw [hv1]
              have hr2 : rget s1.store s1.now (imageCTKey iid)
                  = .ok none := by
                unfold rget
                rw [hv2]
              rw [← Except.ok.inj (hr1.symm.trans heqr1),
                ← Except.ok.inj (hr2.symm.trans heqr2)]

/-- C8 witness: a cold `get_image` for image `"7"` of `upDemo` returns
both fields. -/
theorem get_image_pair_witness :
    get_image upDemo "7" (emptyState 0)
      = (.ok (some "IMG", some "image/png"),
          (get_image upDemo "7" (emptyState 0)).2) ∧
    ((some "IMG" : Option String).isSome
        = (some "image/png" : Option String).isSome ∧
      ImgPaired (get_image upDemo "7" (emptyState 0)).2) :=
  ⟨by rfl,
    get_image_pair upDemo (emptyState 0) (Reach.init 0) "7"
      (some "IMG") (some "image/png") (get_image upDemo "7" (emptyState 0)).2
      (by rfl)⟩

end OccupEye